import Mathlib

/-!
Verification development for the LingQ/Anki reconciliation engine.

The Python source is shallowly embedded: dict-shaped snapshot records become
structures with `Option` fields for keys that may be absent or non-parseable,
Python `sorted` (a stable sort) is modelled by `List.insertionSort` over a
key drawn from a linear order, Python `dict` counters/indexes become
association lists with the corresponding first-insertion-order semantics,
and machine integers are `Int` (Python ints are unbounded, so no wrap-around
modelling is needed).
-/

/-- Generic stable sort by a key into a linear order; models Python
`sorted(l, key=k)` (both are stable sorts, hence extensionally equal). -/
def sortByKey {α β : Type} [LinearOrder β] (k : α → β) (l : List α) : List α :=
  List.insertionSort (fun a b => k a ≤ k b) l

/-- Helper for `dedupByKey`: drops elements whose key was already seen. -/
def dedupByKeyAux {α κ : Type} [DecidableEq κ] (k : α → κ) : List κ → List α → List α
  | _, [] => []
  | seen, x :: xs =>
    if k x ∈ seen then dedupByKeyAux k seen xs
    else x :: dedupByKeyAux k (k x :: seen) xs

/-- Deduplicate a list by a key, keeping the first occurrence of each key;
models the Python `seen`-set loop idiom and `dict.fromkeys`. -/
def dedupByKey {α κ : Type} [DecidableEq κ] (k : α → κ) (l : List α) : List α :=
  dedupByKeyAux k [] l

/-- Association-list field lookup (first match), models `dict.get` on a
string-keyed dict built without duplicate keys. -/
def lookupField (fields : List (String × String)) (name : String) : Option String :=
  (fields.find? (fun p => p.1 = name)).map (fun p => p.2)

/-- Last-match lookup: models reading a Python dict built with possibly
repeated assignments to the same key (the last assignment wins). -/
def lookupLast {κ α : Type} [DecidableEq κ] (l : List (κ × α)) (k : κ) : Option α :=
  ((l.filter (fun p => p.1 = k)).getLast?).map (fun p => p.2)

/-- Items of a Python dict built by repeated `d[k] = v` assignments over `l`:
keys in first-insertion order, each with its last assigned value. -/
def dictItems {κ α : Type} [DecidableEq κ] (l : List (κ × α)) : List (κ × α) :=
  (dedupByKey Prod.fst l).map (fun p => (p.1, ((lookupLast l p.1).getD p.2)))

/-- Set a key in an association list with Python-dict overwrite semantics:
an existing key keeps its position and gets the new value, a new key is
appended. -/
def assocSet (l : List (String × String)) (k v : String) : List (String × String) :=
  if l.any (fun p => p.1 = k) then l.map (fun p => if p.1 = k then (k, v) else p)
  else l ++ [(k, v)]

/-- Increment a counter dict, models `counts[k] = counts.get(k, 0) + 1`
(keys in first-occurrence order). -/
def assocIncr (l : List (String × Nat)) (k : String) : List (String × Nat) :=
  if l.any (fun p => p.1 = k) then l.map (fun p => if p.1 = k then (k, p.2 + 1) else p)
  else l ++ [(k, 1)]

/-- The characters of Python `string.punctuation`. -/
def pyPunctuation : String := "!\"#$%&'()*+,-./:;<=>?@[\\]^_`\x7b|\x7d~"

/-- Model of Python `str.strip()`: drop leading and trailing whitespace.
(Implemented over the character list so that proofs can evaluate it.) -/
def pyStrip (s : String) : String :=
  (((s.data.dropWhile Char.isWhitespace).reverse.dropWhile Char.isWhitespace).reverse).asString

/-- Split a character list at every character satisfying `p` (each
separator ends a chunk; chunks may be empty, as in Python `str.split(sep)`). -/
def splitOnPredAux (p : Char → Bool) : List Char → List Char → List (List Char)
  | [], cur => [cur.reverse]
  | x :: xs, cur =>
    if p x then cur.reverse :: splitOnPredAux p xs []
    else splitOnPredAux p xs (x :: cur)

/-- Model of Python `s.split("\n")` for a one-character separator. -/
def splitOnChar (c : Char) (s : String) : List String :=
  (splitOnPredAux (fun x => x = c) s.data []).map List.asString

/-- Join character-list chunks with a separator. -/
def joinSep (sep : List Char) : List (List Char) → List Char
  | [] => []
  | [w] => w
  | w :: ws => w ++ sep ++ joinSep sep ws

/-- Model of Python `sep.join(parts)` / `str.join`. -/
def strJoin (sep : String) (parts : List String) : String :=
  (joinSep sep.data (parts.map String.data)).asString

/-- Model of `matching.normalize_text`. The source pipeline is NFKC,
casefold, whitespace-run collapse, trim, strip surrounding punctuation.
Unicode NFKC plus casefold is modelled by ASCII lowercasing (the claims in
this development never depend on non-ASCII normalization behaviour); the
remaining steps are modelled exactly: runs of whitespace collapse to a
single space with surrounding whitespace removed, then leading/trailing
`string.punctuation` characters are stripped. -/
def normalizeText (s : String) : String :=
  let lowered := s.data.map Char.toLower
  let words := (splitOnPredAux Char.isWhitespace lowered []).filter (fun w => w ≠ [])
  let collapsed := joinSep [' '] words
  let stripped := ((collapsed.dropWhile (fun c => c ∈ pyPunctuation.data)).reverse.dropWhile
      (fun c => c ∈ pyPunctuation.data)).reverse
  stripped.asString

/-- Decimal digit run parser for `pyInt?` (`none` on empty or non-digit). -/
def parseDigits : List Char → Option Nat
  | [] => none
  | l => l.foldl (fun acc c =>
      acc.bind (fun n => if c.isDigit then some (10 * n + (c.toNat - 48)) else none))
      (some 0)

/-- Model of Python `int(s)` on a stripped string: optional sign then a
non-empty digit run. -/
def pyInt? (s : String) : Option Int :=
  match s.data with
  | '-' :: rest => (parseDigits rest).map (fun n => -(n : Int))
  | '+' :: rest => (parseDigits rest).map (fun n => (n : Int))
  | l => (parseDigits l).map (fun n => (n : Int))

/-- Model of `_parse_int` applied to an optional raw field string: strip,
empty means absent, otherwise parse a (possibly sign-prefixed) decimal. -/
def parseIntOpt (v : Option String) : Option Int :=
  match v with
  | none => none
  | some s =>
    let t := pyStrip s
    if t = "" then none else pyInt? t

/-- Service-side hint `\x7blocale, text, popularity\x7d`. `locale` is `none`
when the key is absent (Python `None`), `popularity` is `none` when absent
or not an int. -/
structure Hint where
  locale : Option String
  text : String
  popularity : Option Int
deriving DecidableEq, Repr

/-- Service-side card snapshot (`lingq_cards` element). `pk` is the value of
`_parse_int(card.get("pk"))`; string fields absorb the `str(x or "")`
coercions of the source. -/
structure LingqCard where
  pk : Option Int
  term : String
  status : Option Int
  extended_status : Option Int
  srs_due_date : Option String
  hints : List Hint
  fragment : String
deriving DecidableEq, Repr

/-- One Anki card sub-record of a note snapshot; `reps`/`ivl` are `none`
when absent or not ints. -/
structure AnkiCardInfo where
  reps : Option Int
  ivl : Option Int
deriving DecidableEq, Repr

/-- Flashcard-side note snapshot. `note_id` is the parsed id, `fields` the
field-name to text mapping, `cards` is `none` when the snapshot carries no
`cards` list (the `isinstance(cards_raw, list)` checks of the source). -/
structure AnkiNote where
  note_id : Option Int
  fields : List (String × String)
  cards : Option (List AnkiCardInfo)
deriving DecidableEq, Repr

instance : Inhabited AnkiNote := ⟨⟨none, [], none⟩⟩

/-- Identity field names declared on the profile. -/
structure IdentityFields where
  pk_field : String
  canonical_term_field : String
deriving DecidableEq, Repr

/-- The LingQ-to-Anki half of a profile. -/
structure LingqToAnki where
  identity_fields : IdentityFields
  note_type : String
  deck_name : Option String
  field_mapping : List (String × String)
deriving DecidableEq, Repr

/-- The Anki-to-LingQ half of a profile. -/
structure AnkiToLingq where
  term_field : String
  translation_fields : List String
  fragment_field : Option String
deriving DecidableEq, Repr

/-- Sync profile. The optional injected `lss` store is omitted: the source
loads it and looks a value up into `_s`, which is never read afterwards. -/
structure Profile where
  name : String
  lingq_language : String
  lingq_to_anki : LingqToAnki
  anki_to_lingq : AnkiToLingq
  enable_scheduling_writes : Bool
deriving DecidableEq, Repr

/-- Model of `run_options.AmbiguousMatchPolicy`. -/
inductive AmbiguousMatchPolicy where
  | UNSET | ASK | SKIP | CONSERVATIVE_SKIP | AGGRESSIVE_LINK_FIRST
deriving DecidableEq, Repr

/-- String value of an ambiguous-match policy (the enum `.value`). -/
def AmbiguousMatchPolicy.value : AmbiguousMatchPolicy → String
  | .UNSET => "UNSET"
  | .ASK => "ASK"
  | .SKIP => "SKIP"
  | .CONSERVATIVE_SKIP => "CONSERVATIVE_SKIP"
  | .AGGRESSIVE_LINK_FIRST => "AGGRESSIVE_LINK_FIRST"

/-- Model of `run_options.TranslationAggregationPolicy`. -/
inductive TranslationAggregationPolicy where
  | UNSET | ASK | SKIP | MAX | MIN | AVG
deriving DecidableEq, Repr

/-- Model of `run_options.SchedulingWritePolicy`. -/
inductive SchedulingWritePolicy where
  | UNSET | INHERIT_PROFILE | FORCE_ON | FORCE_OFF
deriving DecidableEq, Repr

/-- Model of `run_options.RunOptions`. -/
structure RunOptions where
  ambiguous_match_policy : AmbiguousMatchPolicy
  translation_aggregation_policy : TranslationAggregationPolicy
  scheduling_write_policy : SchedulingWritePolicy
deriving DecidableEq, Repr

/-- Model of `progress_sync.LINGQ_STATUS_TIERS` (`dict.get` with default
handled at the call site). -/
def lingqStatusTiers (s : Int) : Option String :=
  if s = 0 then some "new"
  else if s = 1 then some "learning"
  else if s = 2 then some "learning"
  else if s = 3 then some "learned"
  else if s = 4 then some "known"
  else none

/-- Model of `progress_sync.lingq_status_to_tier`. -/
def lingqStatusToTier (lingq_status : Int) (extended_status : Option Int) : String :=
  if lingq_status = 3 ∧ extended_status = some 3 then "known"
  else (lingqStatusTiers lingq_status).getD "unknown"

/-- Model of `progress_sync.count_hints_in_locale`. -/
def countHintsInLocale (hints : List Hint) (locale : String) : Nat :=
  if pyStrip locale = "" then 0
  else
    let loc := pyStrip locale
    (hints.filter (fun h => h.locale = some loc ∧ pyStrip h.text ≠ "")).length

/-- Model of `progress_sync.has_polysemy`. -/
def hasPolysemy (hints : List Hint) (locale : String) : Bool :=
  countHintsInLocale hints locale > 1

/-- Model of `progress_sync.ProgressComparison`. -/
structure ProgressComparison where
  should_sync_to_lingq : Bool
  should_sync_to_anki : Bool
  lingq_tier : String
  reason : String
deriving DecidableEq, Repr

/-- Model of `progress_sync.compare_progress`. -/
def compareProgress (lingq_status : Int) (lingq_hints : List Hint)
    (meaning_locale : String) (anki_has_reviews : Bool)
    (enable_scheduling_writes : Bool) : ProgressComparison :=
  let tier := lingqStatusToTier lingq_status none
  let poly := hasPolysemy lingq_hints meaning_locale
  if ¬ enable_scheduling_writes then
    ⟨false, false, tier, "scheduling_writes_disabled"⟩
  else if anki_has_reviews ∧ tier = "new" then
    ⟨true, false, tier, "anki_has_reviews_lingq_new"⟩
  else if ¬ anki_has_reviews ∧ tier ≠ "new" then
    if poly then ⟨false, false, tier, "polysemy_skip_lingq_to_anki"⟩
    else ⟨false, true, tier, "lingq_has_progress_anki_no_reviews"⟩
  else ⟨false, false, tier, "no_action"⟩

/-- Model of `hint_reconciliation.normalize_hint_text` (delegates to the
text normalizer). -/
def normalizeHintText (t : String) : String := normalizeText t

/-- Model of `hint_reconciliation.find_missing_hints`. -/
def findMissingHints (anki_translations : List String) (lingq_hints : List Hint)
    (locale : String) : List String :=
  let existing_norms := (lingq_hints.filter (fun h => h.locale = some locale)).map
    (fun h => normalizeHintText h.text)
  dedupByKey normalizeHintText
    (anki_translations.filter
      (fun t => normalizeHintText t ≠ "" ∧ normalizeHintText t ∉ existing_norms))

/-- Dedup key of `hint_reconciliation.deduplicate_hints`:
`(str(locale or ""), normalized text)`. -/
def hintKey (h : Hint) : String × String :=
  (h.locale.getD "", normalizeHintText h.text)

/-- Model of `hint_reconciliation.deduplicate_hints`. -/
def deduplicateHints (hints : List Hint) : List Hint :=
  dedupByKey hintKey hints

/-- Sort key of `hint_reconciliation.build_hints_payload`:
`(normalized text, locale, original text)` lexicographically. -/
def hintSortKey (h : Hint) : Lex (List Char × Lex (List Char × List Char)) :=
  toLex ((normalizeHintText h.text).data, toLex ((h.locale.getD "").data, h.text.data))

/-- Model of `hint_reconciliation.build_hints_payload`. -/
def buildHintsPayload (existing_hints : List Hint) (new_translations : List String)
    (locale : String) : List Hint :=
  let hints := existing_hints ++ new_translations.filterMap
    (fun t => if normalizeHintText t = "" then none else some ⟨some locale, t, none⟩)
  sortByKey hintSortKey (deduplicateHints hints)

/-- Operation type string constants of `diff_engine`. -/
def OP_CREATE_LINGQ : String := "create_lingq"

/-- Operation type: create an Anki note from a LingQ card. -/
def OP_CREATE_ANKI : String := "create_anki"

/-- Operation type: link an existing Anki note to a LingQ card. -/
def OP_LINK : String := "link"

/-- Operation type: update LingQ hints. -/
def OP_UPDATE_HINTS : String := "update_hints"

/-- Operation type: update LingQ status. -/
def OP_UPDATE_STATUS : String := "update_status"

/-- Operation type: reschedule an Anki card. -/
def OP_RESCHEDULE_ANKI : String := "reschedule_anki"

/-- Operation type: ambiguous match needing resolution. -/
def OP_CONFLICT : String := "conflict"

/-- Operation type: skipped due to policy. -/
def OP_SKIP : String := "skip"

/-- Candidate summary carried in ambiguous-match conflict details
(`diff_engine._candidate_summary`). -/
structure CandidateSummary where
  pk : Option Int
  term : String
  hints : List String
deriving DecidableEq, Repr

/-- Typed rendering of the extra context keys a conflict operation's
details dict carries, one constructor per source construction site. -/
inductive ConflictInfo where
  | nothing
  | pkFieldName (pk_field : String)
  | pkValue (pk : Int)
  | translations (ts : List String)
  | lingqCandidates (cs : List CandidateSummary)
  | lingqPk (pk : Int)
  | ankiCandidates (ids : List Int)
  | card (c : LingqCard)
deriving DecidableEq, Repr

/-- Typed rendering of the per-`op_type` `details` payload dict, one
constructor per payload shape the source constructs (constant keys such as
`source`, `match.method` and `fsrs_safe` that are fixed per constructor are
not repeated as fields). -/
inductive Details where
  | dskip (reason : String)
  | dconflict (conflict_type : String) (recommended_action : String) (info : ConflictInfo)
  | dlink (pk_field : String) (canonical_term_field : String)
      (pk_value : String) (canonical_term_value : String)
  | dcreateLingq (lingq_language : String) (hints : List (String × String))
      (fragment : Option String) (identity : Option (String × String × String))
      (desired_status : Option Int)
  | dcreateAnki (note_type : String) (fields : List (String × String))
      (pk_field : String) (canonical_term_field : String)
      (pk_value : String) (canonical_term_value : String) (deck : Option String)
  | dupdateHints (lingq_language : String) (hints : List Hint) (reason : String)
  | dupdateStatus (lingq_language : String) (status : Int) (reason : String)
  | dreschedule (target_tier : String) (lingq_status : Int)
      (lingq_due_date : Option String) (reason : String)
deriving DecidableEq, Repr

/-- Model of `diff_engine.SyncOperation`. -/
structure SyncOperation where
  op_type : String
  anki_note_id : Option Int
  lingq_pk : Option Int
  term : String
  details : Details
deriving DecidableEq, Repr

/-- Model of `diff_engine.SyncPlan` (with the `profile_name` attribute the
diff engine attaches for checkpoint scoping). -/
structure SyncPlan where
  operations : List SyncOperation
  profile_name : String
deriving DecidableEq, Repr

/-- Model of `SyncPlan.count_by_type` (a Python dict: keys in
first-occurrence order). -/
def SyncPlan.countByType (p : SyncPlan) : List (String × Nat) :=
  p.operations.foldl (fun acc op => assocIncr acc op.op_type) []

/-- Model of `diff_engine._effective_enable_scheduling_writes`. -/
def effectiveEnableSchedulingWrites (profile : Profile)
    (run_options : Option RunOptions) : Bool :=
  match run_options with
  | none => profile.enable_scheduling_writes
  | some ro =>
    match ro.scheduling_write_policy with
    | .FORCE_OFF => false
    | .FORCE_ON => true
    | _ => profile.enable_scheduling_writes

/-- Model of `diff_engine._sorted_translations`: drop candidates whose
normalized form is empty, deduplicate by the exact raw string keeping the
first occurrence (`dict.fromkeys`), then stably sort by normalized text. -/
def sortedTranslations (translations : List String) : List String :=
  sortByKey (fun t => (normalizeText t).data)
    (dedupByKey id (translations.filter (fun t => normalizeText t ≠ "")))

/-- Model of `diff_engine._select_translation_by_policy`. -/
def selectTranslationByPolicy (translations : List String)
    (policy : TranslationAggregationPolicy) : Option String :=
  let items := sortedTranslations translations
  match items with
  | [] => none
  | _ =>
    match policy with
    | .MIN => items.head?
    | .MAX => items.getLast?
    | .AVG => items[items.length / 2]?
    | _ => none

/-- Model of `diff_engine._candidate_summary`. -/
def candidateSummary (c : LingqCard) (meaning_locale : String) : CandidateSummary :=
  ⟨c.pk, c.term, (c.hints.filter (fun h => h.locale = some meaning_locale)).map
    (fun h => h.text)⟩

/-- Model of `diff_engine._sorted_candidates`. -/
def sortedCandidates (cards : List LingqCard) (meaning_locale : String) :
    List CandidateSummary :=
  sortByKey (fun d => d.pk.getD 0)
    ((cards.map (fun c => candidateSummary c meaning_locale)).map
      (fun d => ⟨d.pk, d.term, sortByKey (fun x => (normalizeText x).data) d.hints⟩))

/-- Model of `diff_engine._sorted_anki_candidate_ids`. -/
def sortedAnkiCandidateIds (notes : List AnkiNote) : List Int :=
  sortByKey (fun i => i) (notes.filterMap (fun n => n.note_id))

/-- Model of `diff_engine._pick_first_lingq_candidate`. -/
def pickFirstLingqCandidate (cards : List LingqCard) (linked : List Int) :
    Option LingqCard :=
  (sortByKey (fun c => c.pk.getD 0) cards).find?
    (fun c => match c.pk with
      | none => false
      | some pk => ¬ pk ∈ linked)

/-- Model of `diff_engine._pick_first_anki_candidate` (the source indexes
`[0]`, only reached with a non-empty list). -/
def pickFirstAnkiCandidate (notes : List AnkiNote) : AnkiNote :=
  (sortByKey (fun n => n.note_id.getD 0) notes).headD default

/-- Model of `diff_engine._extract_anki_term`. -/
def extractAnkiTerm (fields : List (String × String)) (profile : Profile) :
    String × String :=
  let raw := (lookupField fields profile.anki_to_lingq.term_field).getD ""
  (raw, normalizeText raw)

/-- Model of `diff_engine._extract_anki_translations`: split each configured
field on newline, trim tokens, keep those with non-empty normalized form,
then dedupe by normalized form keeping stable order. Returns the raw tokens
and their normalized forms. -/
def extractAnkiTranslations (fields : List (String × String)) (profile : Profile) :
    List String × List String :=
  let tokens := profile.anki_to_lingq.translation_fields.flatMap
    (fun fname =>
      (splitOnChar '\n' ((lookupField fields fname).getD "")).filterMap
        (fun part =>
          let t := pyStrip part
          let n := normalizeText t
          if n = "" then none else some (t, n)))
  let deduped := dedupByKey (fun p => p.2) tokens
  (deduped.map (fun p => p.1), deduped.map (fun p => p.2))

/-- Model of `diff_engine._filter_lingq_by_translation`. -/
def filterLingqByTranslation (cards : List LingqCard) (translation_norm : String)
    (meaning_locale : String) : List LingqCard :=
  cards.filter (fun c => c.hints.any
    (fun h => h.locale = some meaning_locale ∧ normalizeText h.text = translation_norm))

/-- Model of `diff_engine._select_primary_lingq_translation`: highest
popularity hint in the locale, ties by normalized then raw text. -/
def selectPrimaryLingqTranslation (card : LingqCard) (meaning_locale : String) :
    String :=
  let candidates := card.hints.filterMap (fun h =>
    if h.locale = some meaning_locale then
      let raw := pyStrip h.text
      let n := normalizeText raw
      if n = "" then none else some (-(h.popularity.getD 0), n, raw)
    else none)
  match sortByKey (fun t => toLex (t.1, toLex (t.2.1.data, t.2.2.data))) candidates with
  | [] => ""
  | c :: _ => c.2.2

/-- Model of `diff_engine._anki_has_reviews`. -/
def ankiHasReviews (note : AnkiNote) : Bool :=
  match note.cards with
  | none => false
  | some cs => cs.any (fun c => match c.reps with
    | some r => r > 0
    | none => false)

/-- Model of `diff_engine._map_anki_progress_to_lingq_status`. -/
def mapAnkiProgressToLingqStatus (note : AnkiNote) (current_status : Int) : Int :=
  let cs := note.cards.getD []
  let reps := cs.foldl (fun m c => match c.reps with
    | some r => if r > m then r else m
    | none => m) (0 : Int)
  let max_ivl := cs.foldl (fun m c => match c.ivl with
    | some v => if v > m then v else m
    | none => m) (0 : Int)
  let d0 := current_status
  let d1 := if reps ≥ 1 then max d0 1 else d0
  let d2 := if reps ≥ 3 then max d1 2 else d1
  let d3 := if max_ivl ≥ 21 then max d2 3 else d2
  let d4 := if max_ivl ≥ 90 then max d3 4 else d3
  max 0 (min 4 d4)

/-- Keyset of `diff_engine._hints_payload_equal`: pairs
`(locale, normalized text)` with both components non-empty. -/
def hintsKeyset (hints : List Hint) : List (String × String) :=
  hints.filterMap (fun h =>
    let loc := h.locale.getD ""
    let tx := normalizeText h.text
    if loc ≠ "" ∧ tx ≠ "" then some (loc, tx) else none)

/-- Model of `diff_engine._hints_payload_equal` (set equality of keysets). -/
def hintsPayloadEqual (a b : List Hint) : Bool :=
  (hintsKeyset a).all (fun k => k ∈ hintsKeyset b) ∧
    (hintsKeyset b).all (fun k => k ∈ hintsKeyset a)

/-- Model of `diff_engine._op_skip`. -/
def opSkip (anki_note_id : Option Int) (lingq_pk : Option Int) (term : String)
    (reason : String) : SyncOperation :=
  ⟨OP_SKIP, anki_note_id, lingq_pk, term, Details.dskip reason⟩

/-- Model of `diff_engine._op_conflict`. -/
def opConflict (anki_note_id : Option Int) (lingq_pk : Option Int) (term : String)
    (conflict_type : String) (recommended_action : String) (info : ConflictInfo) :
    SyncOperation :=
  ⟨OP_CONFLICT, anki_note_id, lingq_pk, term,
    Details.dconflict conflict_type recommended_action info⟩

/-- Model of `diff_engine._op_link`. -/
def opLink (note_id : Int) (pk : Int) (term : String) (pk_field : String)
    (canonical_term_field : String) (canonical_term_value : String) : SyncOperation :=
  ⟨OP_LINK, some note_id, some pk, term,
    Details.dlink pk_field canonical_term_field (toString pk) canonical_term_value⟩

/-- Model of `diff_engine._op_create_lingq`. -/
def opCreateLingq (note_id : Int) (term : String) (translations : List String)
    (lingq_language : String) (meaning_locale : String) (fragment : Option String)
    (pk_field : String) (canonical_term_field : String) (desired_status : Int) :
    SyncOperation :=
  let frag := pyStrip (fragment.getD "")
  let identity :=
    if pyStrip pk_field ≠ "" ∧ pyStrip canonical_term_field ≠ "" then
      some (pyStrip pk_field, pyStrip canonical_term_field, term)
    else none
  ⟨OP_CREATE_LINGQ, some note_id, none, term,
    Details.dcreateLingq lingq_language [(meaning_locale, translations.headD "")]
      (if frag = "" then none else some frag) identity (some desired_status)⟩

/-- Model of `diff_engine._extract_lingq_field`. The final generic
`card.get(lingq_key)` fallback is rendered for the remaining typed snapshot
keys, and `""` for keys outside the snapshot shape. -/
def extractLingqField (card : LingqCard) (lingq_key : String)
    (meaning_locale : String) : String :=
  if lingq_key = "term" then card.term
  else if lingq_key = "pk" ∨ lingq_key = "LingQ_PK" then
    match card.pk with
    | some p => if p = 0 then "" else toString p
    | none => ""
  else if lingq_key = "status" then
    match card.status with
    | some s => if s = 0 then "" else toString s
    | none => ""
  else if lingq_key = "fragment" then card.fragment
  else if lingq_key = "translation" ∨ lingq_key = "hint" ∨ lingq_key = "meaning" then
    selectPrimaryLingqTranslation card meaning_locale
  else if lingq_key = "translations" ∨ lingq_key = "hints" then
    let texts := card.hints.filterMap (fun h =>
      if h.locale = some meaning_locale then
        let t := pyStrip h.text
        if normalizeText t ≠ "" then some t else none
      else none)
    strJoin "; " (sortByKey (fun x => (normalizeText x).data) (dedupByKey id texts))
  else if lingq_key = "srs_due_date" then (card.srs_due_date).getD ""
  else if lingq_key = "extended_status" then
    match card.extended_status with
    | some s => if s = 0 then "" else toString s
    | none => ""
  else ""

/-- Model of `diff_engine._op_create_anki_from_lingq`. -/
def opCreateAnkiFromLingq (card : LingqCard) (profile : Profile)
    (meaning_locale : String) : SyncOperation :=
  let pk := card.pk
  let term := card.term
  let mapped := profile.lingq_to_anki.field_mapping.foldl
    (fun acc p => assocSet acc p.2 (extractLingqField card p.1 meaning_locale)) []
  let pk_field := profile.lingq_to_anki.identity_fields.pk_field
  let canon_field := profile.lingq_to_anki.identity_fields.canonical_term_field
  let mapped2 :=
    match pk with
    | some p => assocSet mapped pk_field (toString p)
    | none => mapped
  let fields_out := assocSet mapped2 canon_field term
  let deck :=
    match profile.lingq_to_anki.deck_name with
    | some d => if pyStrip d ≠ "" then some (pyStrip d) else none
    | none => none
  ⟨OP_CREATE_ANKI, none, pk, term,
    Details.dcreateAnki profile.lingq_to_anki.note_type fields_out pk_field canon_field
      (match pk with | some p => toString p | none => "") term deck⟩

/-- Context threaded through one `compute_sync_plan` run: the profile and
options plus the pre-sorted snapshots both indexing passes consume. -/
structure DiffCtx where
  profile : Profile
  meaning_locale : String
  run_options : Option RunOptions
  enable_sched : Bool
  sortedCards : List LingqCard
  ankiSorted : List AnkiNote
deriving Repr

/-- Entries `(pk, card)` of the sorted service snapshot whose pk parsed
(cards with unparseable pk are skipped by the indexing loop). -/
def pkEntries (ctx : DiffCtx) : List (Int × LingqCard) :=
  ctx.sortedCards.filterMap (fun c => c.pk.map (fun pk => (pk, c)))

/-- Model of the `lingq_by_pk` dict lookup (last assignment wins on
duplicate pks, per Python dict semantics). -/
def lingqByPkGet (ctx : DiffCtx) (pk : Int) : Option LingqCard :=
  (lookupLast (pkEntries ctx) pk)

/-- Model of `lingq_by_term_norm.get(tn, [])`: cards with parseable pk and
the given non-empty normalized term, in sorted-snapshot order. -/
def lingqByTermNorm (ctx : DiffCtx) (tn : String) : List LingqCard :=
  if tn = "" then []
  else ctx.sortedCards.filter (fun c => c.pk.isSome ∧ normalizeText c.term = tn)

/-- Model of `unlinked_anki_by_term_norm.get(tn, [])`: notes with parseable
id, no existing pk-field value, and the given non-empty normalized term, in
sorted-snapshot order. -/
def unlinkedAnkiByTermNorm (ctx : DiffCtx) (tn : String) : List AnkiNote :=
  if tn = "" then []
  else ctx.ankiSorted.filter (fun n =>
    n.note_id.isSome ∧
      parseIntOpt (lookupField n.fields ctx.profile.lingq_to_anki.identity_fields.pk_field)
        = none ∧
      normalizeText ((lookupField n.fields ctx.profile.anki_to_lingq.term_field).getD "")
        = tn)

/-- Polysemy-policy resolution inside `_emit_update_ops_for_linked_pair`:
returns the skip/conflict operations emitted while resolving multiple note
translations, and the resulting list of missing hint texts. -/
def resolveHintsPolicy (ctx : DiffCtx) (note : AnkiNote) (card : LingqCard)
    (nid pk : Int) : List SyncOperation × List String :=
  let term := card.term
  let translations := (extractAnkiTranslations note.fields ctx.profile).1
  let missing_all := findMissingHints translations card.hints ctx.meaning_locale
  if missing_all = [] then ([], missing_all)
  else
    match ctx.run_options with
    | none => ([], missing_all)
    | some ro =>
      if translations.length ≤ 1 then ([], missing_all)
      else
        let agg := ro.translation_aggregation_policy
        let selected := selectTranslationByPolicy translations agg
        if agg = .SKIP then
          ([opSkip (some nid) (some pk) term "translation_aggregation_policy_skip"], [])
        else
          match selected with
          | none =>
            ([opConflict (some nid) (some pk) term "anki_polysemy_needs_policy"
                "choose_aggregation_policy_or_select_single_translation"
                (ConflictInfo.translations (sortedTranslations translations))], [])
          | some sel => ([], findMissingHints [sel] card.hints ctx.meaning_locale)

/-- The hints block of `_emit_update_ops_for_linked_pair`: polysemy policy
resolution of the note's translations (possibly emitting a skip/conflict),
then the additive Anki-to-LingQ `update_hints` operation when the payload
would change and the review-evidence gate passes. -/
def emitHintsSection (ctx : DiffCtx) (note : AnkiNote) (card : LingqCard)
    (nid pk : Int) : List SyncOperation :=
  let resolved := resolveHintsPolicy ctx note card nid pk
  resolved.1 ++
    (if resolved.2 ≠ [] ∧ (note.cards = none ∨ ankiHasReviews note) then
      (let new_payload := buildHintsPayload card.hints resolved.2 ctx.meaning_locale
       if ¬ hintsPayloadEqual new_payload card.hints then
         [⟨OP_UPDATE_HINTS, some nid, some pk, card.term,
           Details.dupdateHints ctx.profile.lingq_language new_payload
             "anki_translation_missing_in_lingq"⟩]
       else [])
     else [])

/-- The progress block of `_emit_update_ops_for_linked_pair`: the explicit
scheduling-disabled skip, the Anki-to-LingQ `update_status`, or the
polysemy-guarded LingQ-to-Anki `reschedule_anki`. -/
def emitProgressSection (ctx : DiffCtx) (note : AnkiNote) (card : LingqCard)
    (nid pk : Int) : List SyncOperation :=
  let term := card.term
  let lang := ctx.profile.lingq_language
  let lingq_hints := card.hints
  let anki_has_reviews := ankiHasReviews note
  let lingq_status := card.status.getD 0
  let poly := hasPolysemy lingq_hints ctx.meaning_locale
  let comp := compareProgress lingq_status lingq_hints ctx.meaning_locale
    anki_has_reviews ctx.enable_sched
  if ¬ ctx.enable_sched then
    [opSkip (some nid) (some pk) term "scheduling_writes_disabled"]
  else if comp.should_sync_to_lingq then
    let desired := mapAnkiProgressToLingqStatus note lingq_status
    if desired ≠ lingq_status then
      [⟨OP_UPDATE_STATUS, some nid, some pk, term,
        Details.dupdateStatus lang desired comp.reason⟩]
    else []
  else if comp.should_sync_to_anki then
    if poly then [opSkip (some nid) (some pk) term "polysemy_skip_lingq_to_anki"]
    else
      [⟨OP_RESCHEDULE_ANKI, some nid, some pk, term,
        Details.dreschedule (lingqStatusToTier lingq_status card.extended_status)
          lingq_status card.srs_due_date comp.reason⟩]
  else []

/-- Model of `diff_engine._emit_update_ops_for_linked_pair`. Returns the
operations appended for one linked note/card pair. -/
def emitUpdateOps (ctx : DiffCtx) (note : AnkiNote) (card : LingqCard) :
    List SyncOperation :=
  match note.note_id, card.pk with
  | some nid, some pk =>
    emitHintsSection ctx note card nid pk ++ emitProgressSection ctx note card nid pk
  | _, _ => [opSkip note.note_id card.pk card.term "invalid_payload"]

/-- Pass-1 handling of a note that already carries a pk-field value
(`compute_sync_plan`, the `existing_pk is not None` branch). -/
def processPkNote (ctx : DiffCtx) (linked : List Int) (note : AnkiNote)
    (nid : Int) (epk : Int) (term : String) : List SyncOperation × List Int :=
  match lingqByPkGet ctx epk with
  | none =>
    ([opConflict (some nid) (some epk) term "dangling_pk"
        "refresh_lingq_fetch_or_unlink_note"
        (ConflictInfo.pkFieldName ctx.profile.lingq_to_anki.identity_fields.pk_field)],
      linked)
  | some card =>
    if epk ∈ linked then
      ([opConflict (some nid) (some epk) term "duplicate_pk"
          "dedupe_anki_notes_or_choose_primary" (ConflictInfo.pkValue epk)], linked)
    else (emitUpdateOps ctx note card, epk :: linked)

/-- The optional example-fragment value read from the configured fragment
field when creating a LingQ card from a note. -/
def noteFragmentValue (ctx : DiffCtx) (note : AnkiNote) : Option String :=
  match ctx.profile.anki_to_lingq.fragment_field with
  | some ff =>
    if pyStrip ff ≠ "" then
      match lookupField note.fields (pyStrip ff) with
      | some fv => if pyStrip fv ≠ "" then some (pyStrip fv) else none
      | none => none
    else none
  | none => none

/-- Pass-1 handling of an unlinked note once a single translation has been
resolved: term+translation matching and the 1/0/many-match branches. -/
def processMatchStep (ctx : DiffCtx) (linked : List Int) (note : AnkiNote)
    (nid : Int) (term : String) (term_norm : String)
    (translations translation_norms : List String) : List SyncOperation × List Int :=
  let pk_field := ctx.profile.lingq_to_anki.identity_fields.pk_field
  let canon_field := ctx.profile.lingq_to_anki.identity_fields.canonical_term_field
  let candidate_cards := lingqByTermNorm ctx term_norm
  let matchedItems := filterLingqByTranslation candidate_cards (translation_norms.headD "")
    ctx.meaning_locale
  match matchedItems with
  | [card] =>
    (match card.pk with
    | none =>
      ([opConflict (some nid) none term "invalid_payload" "skip"
          (ConflictInfo.card card)], linked)
    | some pk =>
      if pk ∈ linked then
        ([opConflict (some nid) (some pk) term "ambiguous_lingq_match"
            "multiple_anki_notes_match_same_lingq" (ConflictInfo.lingqPk pk)], linked)
      else
        (opLink nid pk term pk_field canon_field card.term :: emitUpdateOps ctx note card,
          pk :: linked))
  | [] =>
    if note.cards.isSome ∧ ¬ ankiHasReviews note then
      ([opSkip (some nid) none term "anki_unreviewed_skip_create_lingq"], linked)
    else
      ([opCreateLingq nid term translations ctx.profile.lingq_language
          ctx.meaning_locale (noteFragmentValue ctx note) pk_field canon_field
          (mapAnkiProgressToLingqStatus note 0)], linked)
  | _ :: _ :: _ =>
    match ctx.run_options with
    | none =>
      ([opConflict (some nid) none term "ambiguous_lingq_match" "user_select_lingq_pk"
          (ConflictInfo.lingqCandidates (sortedCandidates matchedItems ctx.meaning_locale))],
        linked)
    | some ro =>
      match ro.ambiguous_match_policy with
      | .SKIP =>
        ([opSkip (some nid) none term "ambiguous_match_policy_skip"], linked)
      | .CONSERVATIVE_SKIP =>
        ([opSkip (some nid) none term "ambiguous_match_policy_conservative_skip"], linked)
      | .AGGRESSIVE_LINK_FIRST =>
        (match pickFirstLingqCandidate matchedItems linked with
        | none =>
          ([opConflict (some nid) none term "ambiguous_lingq_match"
              "multiple_anki_notes_match_same_lingq"
              (ConflictInfo.lingqCandidates (sortedCandidates matchedItems ctx.meaning_locale))],
            linked)
        | some card =>
          match card.pk with
          | none => ([opSkip (some nid) none term "invalid_payload"], linked)
          | some pk =>
            (opLink nid pk term pk_field canon_field card.term
                :: emitUpdateOps ctx note card,
              pk :: linked))
      | _ =>
        ([opConflict (some nid) none term "ambiguous_lingq_match" "user_select_lingq_pk"
            (ConflictInfo.lingqCandidates (sortedCandidates matchedItems ctx.meaning_locale))],
          linked)

/-- Pass-1 handling of an unlinked note (`compute_sync_plan` step 2):
missing term/translation skips, polysemy policy resolution, then matching. -/
def processUnlinkedNote (ctx : DiffCtx) (linked : List Int) (note : AnkiNote)
    (nid : Int) (term : String) (term_norm : String)
    (translations translation_norms : List String) : List SyncOperation × List Int :=
  if term_norm = "" then ([opSkip (some nid) none term "missing_term"], linked)
  else if translations.length = 0 then
    ([opSkip (some nid) none term "missing_translation"], linked)
  else if translations.length > 1 then
    match ctx.run_options with
    | none =>
      ([opConflict (some nid) none term "anki_polysemy_needs_policy"
          "choose_aggregation_policy_or_select_single_translation"
          (ConflictInfo.translations (sortedTranslations translations))], linked)
    | some ro =>
      match selectTranslationByPolicy translations ro.translation_aggregation_policy with
      | none =>
        if ro.translation_aggregation_policy = .SKIP then
          ([opSkip (some nid) none term "translation_aggregation_policy_skip"], linked)
        else
          ([opConflict (some nid) none term "anki_polysemy_needs_policy"
              "choose_aggregation_policy_or_select_single_translation"
              (ConflictInfo.translations (sortedTranslations translations))], linked)
      | some sel =>
        processMatchStep ctx linked note nid term term_norm [sel] [normalizeText sel]
  else processMatchStep ctx linked note nid term term_norm translations translation_norms

/-- Pass-1 handling of one note of the sorted snapshot. -/
def processNote (ctx : DiffCtx) (linked : List Int) (note : AnkiNote) :
    List SyncOperation × List Int :=
  match note.note_id with
  | none => ([opSkip none none "" "invalid_payload"], linked)
  | some nid =>
    let pk_field := ctx.profile.lingq_to_anki.identity_fields.pk_field
    let existing_pk := parseIntOpt (lookupField note.fields pk_field)
    let term := (extractAnkiTerm note.fields ctx.profile).1
    let term_norm := (extractAnkiTerm note.fields ctx.profile).2
    let extracted := extractAnkiTranslations note.fields ctx.profile
    match existing_pk with
    | some epk => processPkNote ctx linked note nid epk term
    | none =>
      processUnlinkedNote ctx linked note nid term term_norm extracted.1 extracted.2

/-- Pass-2 matching predicate over unlinked Anki candidates for one card
(the inner `for note in candidates` filter of `compute_sync_plan`). -/
def pass2MatchPred (ctx : DiffCtx) (primary_translation_norm : String)
    (note : AnkiNote) : Bool :=
  let extracted := extractAnkiTranslations note.fields ctx.profile
  let ts := extracted.1
  let tns := extracted.2
  if tns.length ≠ 1 then
    match ctx.run_options with
    | none => false
    | some ro =>
      if ts.length ≤ 1 then false
      else
        match selectTranslationByPolicy ts ro.translation_aggregation_policy with
        | none => false
        | some s => normalizeText s = primary_translation_norm
  else tns.headD "" = primary_translation_norm

/-- Pass-2 handling of one service card not linked in pass 1
(`compute_sync_plan`, the LingQ-to-Anki loop body). -/
def processCard (ctx : DiffCtx) (linked : List Int) (pk : Int) (card : LingqCard) :
    List SyncOperation × List Int :=
  let pk_field := ctx.profile.lingq_to_anki.identity_fields.pk_field
  let canon_field := ctx.profile.lingq_to_anki.identity_fields.canonical_term_field
  if pk ∈ linked then ([], linked)
  else
    let term := card.term
    let term_norm := normalizeText term
    if term_norm = "" then ([opSkip none (some pk) term "missing_term"], linked)
    else
      let primary := selectPrimaryLingqTranslation card ctx.meaning_locale
      let primary_norm := normalizeText primary
      if primary_norm = "" then ([opSkip none (some pk) term "missing_translation"], linked)
      else
        let candidates := unlinkedAnkiByTermNorm ctx term_norm
        let matchedItems := candidates.filter (pass2MatchPred ctx primary_norm)
        match matchedItems with
        | [note] =>
          (match note.note_id with
          | some nid =>
            (opLink nid pk term pk_field canon_field card.term
                :: emitUpdateOps ctx note card, pk :: linked)
          | none =>
            ([opCreateAnkiFromLingq card ctx.profile ctx.meaning_locale], linked))
        | _ :: _ :: _ =>
          (match ctx.run_options with
          | none =>
            ([opConflict none (some pk) term "ambiguous_lingq_match"
                "multiple_anki_notes_match_same_lingq"
                (ConflictInfo.ankiCandidates (sortedAnkiCandidateIds matchedItems))], linked)
          | some ro =>
            match ro.ambiguous_match_policy with
            | .SKIP => ([opSkip none (some pk) term "ambiguous_match_policy_skip"], linked)
            | .CONSERVATIVE_SKIP =>
              ([opSkip none (some pk) term "ambiguous_match_policy_conservative_skip"],
                linked)
            | .AGGRESSIVE_LINK_FIRST =>
              let picked := pickFirstAnkiCandidate matchedItems
              (match picked.note_id with
              | none => ([opSkip none (some pk) term "invalid_payload"], linked)
              | some nid =>
                (opLink nid pk term pk_field canon_field card.term
                    :: emitUpdateOps ctx picked card, pk :: linked))
            | _ =>
              ([opConflict none (some pk) term "ambiguous_lingq_match"
                  "multiple_anki_notes_match_same_lingq"
                  (ConflictInfo.ankiCandidates (sortedAnkiCandidateIds matchedItems))], linked))
        | [] => ([opCreateAnkiFromLingq card ctx.profile ctx.meaning_locale], linked)

/-- Pass 1 of `compute_sync_plan`: fold the note handler over the sorted
snapshot, accumulating operations and claimed pks. -/
def runPass1 (ctx : DiffCtx) : List SyncOperation × List Int :=
  ctx.ankiSorted.foldl
    (fun acc note =>
      let r := processNote ctx acc.2 note
      (acc.1 ++ r.1, r.2))
    ([], [])

/-- Items the pass-2 loop iterates: `sorted(lingq_by_pk.items())`. -/
def pass2Items (ctx : DiffCtx) : List (Int × LingqCard) :=
  sortByKey (fun p => p.1) (dictItems (pkEntries ctx))

/-- Pass 2 of `compute_sync_plan`. -/
def runPass2 (ctx : DiffCtx) (linked : List Int) : List SyncOperation :=
  (pass2Items ctx).foldl
    (fun acc item =>
      let r := processCard ctx acc.2 item.1 item.2
      (acc.1 ++ r.1, r.2))
    (([] : List SyncOperation), linked) |>.1

/-- Model of `diff_engine.compute_sync_plan`. -/
def computeSyncPlan (anki_notes : List AnkiNote) (lingq_cards : List LingqCard)
    (profile : Profile) (meaning_locale : String)
    (run_options : Option RunOptions) : SyncPlan :=
  let ctx : DiffCtx :=
    ⟨profile, meaning_locale, run_options,
      effectiveEnableSchedulingWrites profile run_options,
      sortByKey (fun c => c.pk.getD 0) lingq_cards,
      sortByKey (fun n => n.note_id.getD 0) anki_notes⟩
  let pass1 := runPass1 ctx
  ⟨pass1.1 ++ runPass2 ctx pass1.2, profile.name⟩

/-- Model of `apply_engine.Checkpoint`. -/
structure Checkpoint where
  run_id : String
  last_processed_index : Int
  completed_ops : List String
deriving DecidableEq, Repr

/-- Model of `apply_engine.ApplyResult`. -/
structure ApplyResult where
  success_count : Nat
  error_count : Nat
  skipped_count : Nat
  errors : List String
deriving DecidableEq, Repr

/-- Model of `apply_engine._op_identifier`:
`f"\x7bop_type\x7d:\x7banki\x7d:\x7bpk\x7d:\x7bterm\x7d"` with `""` for
absent ids. -/
def optIntStr : Option Int → String
  | none => ""
  | some n => toString n

/-- Stable operation identifier derived from
`(op_type, anki_note_id, lingq_pk, term)`; the details payload is not read. -/
def opIdentifier (op : SyncOperation) : String :=
  op.op_type ++ ":" ++ optIntStr op.anki_note_id ++ ":" ++ optIntStr op.lingq_pk
    ++ ":" ++ op.term

/-- Model of the `priorities` mapping in `apply_engine._ordered_operations`
(`dict.get(op_type, 999)` over the six listed groups). -/
def opTypePriority (t : String) : Nat :=
  if t = OP_LINK then 0
  else if t = OP_CREATE_LINGQ then 1
  else if t = OP_UPDATE_HINTS then 2
  else if t = OP_UPDATE_STATUS then 3
  else if t = OP_CONFLICT then 4
  else if t = OP_SKIP then 5
  else 999

/-- Model of `apply_engine._ordered_operations`: enumerate, then sort by
`(priority, original index)`. -/
def orderedOperations (plan : SyncPlan) : List (Nat × SyncOperation) :=
  sortByKey (fun p => toLex (opTypePriority p.2.op_type, p.1)) plan.operations.enum

/-- Outcome of one effectful operation execution: `ok changed` models a
normal return (`changed` is the boolean the Anki-side executors return) and
`err msg` models a raised exception with message `msg`. -/
inductive ExecOutcome where
  | ok (changed : Bool)
  | err (msg : String)
deriving DecidableEq, Repr

/-- Environment of one apply run: whether the Anki runtime is available,
an oracle giving each execution slot's outcome (network and collection
effects), and the run id `uuid.uuid4()` would mint. -/
structure ApplyEnv where
  ankiRuntime : Bool
  exec : Nat → SyncOperation → ExecOutcome
  freshRunId : String

/-- The error string recorded when executing an operation raises:
`f"\x7bop_type\x7d failed for \x7bterm!r\x7d: \x7be\x7d"` (Python `repr` of
the term modelled as simple single-quoting). -/
def opFailureMessage (op : SyncOperation) (msg : String) : String :=
  op.op_type ++ " failed for '" ++ op.term ++ "': " ++ msg

/-- One iteration of the `apply_sync_plan` loop at execution index `i`:
the dispatch over op types, the exception handler, and the `finally` cursor
advance. The `completed` set of the source mirrors `completed_ops`
membership. -/
def applyStep (env : ApplyEnv) (i : Nat) (op : SyncOperation)
    (st : ApplyResult × Checkpoint) : ApplyResult × Checkpoint :=
  let res := st.1
  let cp := st.2
  let op_id := opIdentifier op
  let stepped : ApplyResult × Checkpoint :=
    if op_id ∈ cp.completed_ops then
      ({ res with skipped_count := res.skipped_count + 1 }, cp)
    else if op.op_type = OP_CONFLICT ∨ op.op_type = OP_SKIP then
      ({ res with skipped_count := res.skipped_count + 1 },
        { cp with completed_ops := cp.completed_ops ++ [op_id] })
    else if op.op_type = OP_CREATE_LINGQ ∨ op.op_type = OP_UPDATE_HINTS
        ∨ op.op_type = OP_UPDATE_STATUS then
      match env.exec i op with
      | .ok _ =>
        ({ res with success_count := res.success_count + 1 },
          { cp with completed_ops := cp.completed_ops ++ [op_id] })
      | .err m =>
        ({ { res with error_count := res.error_count + 1 } with
            errors := res.errors ++ [opFailureMessage op m] },
          { cp with completed_ops := cp.completed_ops ++ [op_id] })
    else if (op.op_type = OP_LINK ∨ op.op_type = OP_CREATE_ANKI
        ∨ op.op_type = OP_RESCHEDULE_ANKI) ∧ env.ankiRuntime = true then
      match env.exec i op with
      | .ok changed =>
        (if changed then { res with success_count := res.success_count + 1 }
          else { res with skipped_count := res.skipped_count + 1 },
          { cp with completed_ops := cp.completed_ops ++ [op_id] })
      | .err m =>
        ({ { res with error_count := res.error_count + 1 } with
            errors := res.errors ++ [opFailureMessage op m] },
          { cp with completed_ops := cp.completed_ops ++ [op_id] })
    else if op.op_type = OP_LINK ∨ op.op_type = OP_CREATE_ANKI
        ∨ op.op_type = OP_RESCHEDULE_ANKI then
      ({ { res with skipped_count := res.skipped_count + 1 } with
          errors := res.errors ++
            ["Skipped " ++ op.op_type ++ ": requires Anki runtime (aqt)"] }, cp)
    else
      ({ { res with skipped_count := res.skipped_count + 1 } with
          errors := res.errors ++ ["Skipped unknown op_type=" ++ op.op_type] }, cp)
  (stepped.1, { stepped.2 with last_processed_index := (i : Int) + 1 })

/-- The apply loop over the remaining ordered operations, starting at
execution index `i`. -/
def applyOps (env : ApplyEnv) :
    List (Nat × SyncOperation) → Nat → (ApplyResult × Checkpoint) →
      ApplyResult × Checkpoint
  | [], _, st => st
  | item :: rest, i, st => applyOps env rest (i + 1) (applyStep env i item.2 st)

/-- Model of `apply_engine.apply_sync_plan` (checkpoint persistence is a
file-system effect outside the model; the returned checkpoint is the state
that would be persisted). -/
def applySyncPlan (env : ApplyEnv) (plan : SyncPlan) (checkpoint : Checkpoint) :
    ApplyResult × Checkpoint :=
  let cp := if checkpoint.run_id = "" then { checkpoint with run_id := env.freshRunId }
    else checkpoint
  let ordered := orderedOperations plan
  let start := (max 0 cp.last_processed_index).toNat
  applyOps env (ordered.drop start) start (⟨0, 0, 0, []⟩, cp)

/-- Translation selection following the SPEC'S WORDS rather than the source,
for refutation: the spec says selection "first deduplicates by normalized
form"; the source (`_sorted_translations`) instead deduplicates by the exact
raw string (`dict.fromkeys`) before the stable sort by normalized text. -/
def selectTranslationSpecWords (translations : List String)
    (policy : TranslationAggregationPolicy) : Option String :=
  let items := sortByKey (fun t => (normalizeText t).data)
    (dedupByKey normalizeText (translations.filter (fun t => normalizeText t ≠ "")))
  match items with
  | [] => none
  | _ =>
    match policy with
    | .MIN => items.head?
    | .MAX => items.getLast?
    | .AVG => items[items.length / 2]?
    | _ => none

/-- Example profile: identity fields `PK`/`Canon`, term field `Front`,
translation field `Back`, scheduling writes enabled. -/
def exProfile : Profile :=
  ⟨"p1", "de", ⟨⟨"PK", "Canon"⟩, "NT", none, []⟩, ⟨"Front", ["Back"], none⟩, true⟩

/-- Example service card: pk 10, term `t`, status 0, one English hint `x`. -/
def exCard10 : LingqCard := ⟨some 10, "t", some 0, none, none, [⟨some "en", "x", none⟩], ""⟩

/-- Example reviewed note (same id as `exNoteB`): term `t`, translation `x`,
one card with `reps=1`. -/
def exNoteA : AnkiNote := ⟨some 1, [("Front", "t"), ("Back", "x")], some [⟨some 1, none⟩]⟩

/-- Example unreviewed note sharing `exNoteA`'s id, with an empty cards list. -/
def exNoteB : AnkiNote := ⟨some 1, [("Front", "t"), ("Back", "x")], some []⟩

/-- Example unlinked note whose snapshot carries no cards list at all. -/
def exNoteC : AnkiNote := ⟨some 1, [("Front", "t"), ("Back", "x")], none⟩

/-- Example unlinked note with one card showing `reps=0`. -/
def exNoteD : AnkiNote := ⟨some 2, [("Front", "t"), ("Back", "x")], some [⟨some 0, none⟩]⟩

/-- Example note carrying a pk-field value `77` that no service card has. -/
def exNoteE : AnkiNote := ⟨some 5, [("PK", "77"), ("Front", "t")], none⟩

/-- Example note carrying the pk-field value `10` of `exCard10`. -/
def exNoteF : AnkiNote := ⟨some 6, [("PK", "10"), ("Front", "t")], none⟩

/-- Example diff context over `exCard10` and `exNoteE` (no run options,
scheduling writes enabled). -/
def exCtx : DiffCtx := ⟨exProfile, "en", none, true, [exCard10], [exNoteE]⟩

/-- Example diff context with an empty service snapshot, over `exNoteD`. -/
def exCtxNoCards : DiffCtx := ⟨exProfile, "en", none, true, [], [exNoteD]⟩

/-- Example create-Anki operation (priority bucket 999 in the apply order). -/
def exOpCreateAnki : SyncOperation :=
  ⟨OP_CREATE_ANKI, none, some 1, "a", Details.dskip "unused"⟩

/-- Example skip operation. -/
def exOpSkip : SyncOperation := ⟨OP_SKIP, some 2, none, "b", Details.dskip "y"⟩

/-- Example create-LingQ operation. -/
def exOpCreate : SyncOperation :=
  ⟨OP_CREATE_LINGQ, some 3, none, "c", Details.dskip "z"⟩

/-- Example two-operation plan exercising the 999 bucket. -/
def exPlanC6 : SyncPlan := ⟨[exOpCreateAnki, exOpSkip], "p"⟩

/-- Example apply environment whose every execution raises. -/
def exEnvErr : ApplyEnv := ⟨false, fun _ _ => .err "boom", "rid"⟩

/-- Example fresh checkpoint. -/
def exCp0 : Checkpoint := ⟨"", 0, []⟩

/-- The sort relation of `sortByKey` compares keys. -/
theorem sortByKey_sorted {α β : Type} [LinearOrder β] (k : α → β) (l : List α) :
    List.Sorted (fun a b => k a ≤ k b) (sortByKey k l) := by
  haveI : IsTotal α (fun a b => k a ≤ k b) := ⟨fun a b => le_total (k a) (k b)⟩
  haveI : IsTrans α (fun a b => k a ≤ k b) := ⟨fun a b c h1 h2 => le_trans h1 h2⟩
  exact List.sorted_insertionSort _ l

/-- Sorting permutes its input. -/
theorem sortByKey_perm {α β : Type} [LinearOrder β] (k : α → β) (l : List α) :
    (sortByKey k l).Perm l :=
  List.perm_insertionSort _ l

/-- An already key-sorted list is a fixed point of `sortByKey`. -/
theorem sortByKey_eq_of_sorted {α β : Type} [LinearOrder β] {k : α → β} {l : List α}
    (h : List.Sorted (fun a b => k a ≤ k b) l) : sortByKey k l = l :=
  List.Sorted.insertionSort_eq h

/-- With pairwise-distinct keys, sorting is invariant under permutation of
the input (the determinism core of claims about input-order independence). -/
theorem sortByKey_eq_of_perm {α β : Type} [LinearOrder β] (k : α → β)
    {l₁ l₂ : List α} (h : l₁.Perm l₂) (hnd : (l₁.map k).Nodup) :
    sortByKey k l₁ = sortByKey k l₂ := by
  haveI : IsAntisymm α (fun a b => k a < k b) :=
    ⟨fun a b h1 h2 => absurd (lt_trans h1 h2) (lt_irrefl _)⟩
  have hperm : (sortByKey k l₁).Perm (sortByKey k l₂) :=
    ((sortByKey_perm k l₁).trans h).trans (sortByKey_perm k l₂).symm
  have hstrict : ∀ (l : List α), (l.map k).Nodup →
      List.Sorted (fun a b => k a < k b) (sortByKey k l) := by
    intro l hl
    have hs := sortByKey_sorted k l
    have hnd2 : ((sortByKey k l).map k).Nodup := by
      have : ((sortByKey k l).map k).Perm (l.map k) := (sortByKey_perm k l).map k
      exact (List.Perm.nodup_iff this).mpr hl
    have hne : List.Pairwise (fun a b => k a ≠ k b) (sortByKey k l) :=
      List.pairwise_map.mp hnd2
    exact (hs.and hne).imp (fun hab => lt_of_le_of_ne hab.1 hab.2)
  have hnd₂ : (l₂.map k).Nodup := (List.Perm.nodup_iff (h.map k)).mp hnd
  exact List.eq_of_perm_of_sorted hperm (hstrict l₁ hnd) (hstrict l₂ hnd₂)

/-- Key-dedup output is a sublist of the input. -/
theorem dedupByKeyAux_sublist {α κ : Type} [DecidableEq κ] (k : α → κ) :
    ∀ (seen : List κ) (l : List α), (dedupByKeyAux k seen l).Sublist l := by
  intro seen l
  induction l generalizing seen with
  | nil => simp [dedupByKeyAux]
  | cons x xs ih =>
    by_cases hx : k x ∈ seen
    · simp only [dedupByKeyAux, if_pos hx]
      exact (ih seen).cons x
    · simp only [dedupByKeyAux, if_neg hx]
      exact (ih (k x :: seen)).cons₂ x

/-- Key-dedup of a list with pairwise-distinct, unseen keys is the
identity. -/
theorem dedupByKeyAux_eq_self {α κ : Type} [DecidableEq κ] (k : α → κ) :
    ∀ (seen : List κ) (l : List α), (l.map k).Nodup →
      (∀ x ∈ l, k x ∉ seen) → dedupByKeyAux k seen l = l := by
  intro seen l
  induction l generalizing seen with
  | nil => intro _ _; simp [dedupByKeyAux]
  | cons x xs ih =>
    intro hnd hdisj
    have hx : k x ∉ seen := hdisj x (List.mem_cons_self x xs)
    simp only [dedupByKeyAux, if_neg hx]
    have hnd' : (xs.map k).Nodup := (List.nodup_cons.mp (by simpa using hnd)).2
    have hkx : k x ∉ xs.map k := (List.nodup_cons.mp (by simpa using hnd)).1
    have : dedupByKeyAux k (k x :: seen) xs = xs := by
      refine ih (k x :: seen) hnd' ?_
      intro y hy
      simp only [List.mem_cons]
      push_neg
      exact ⟨fun hky => hkx (hky ▸ List.mem_map_of_mem k hy),
        fun hys => hdisj y (List.mem_cons_of_mem x hy) hys⟩
    rw [this]

/-- Every unseen input key survives key-dedup. -/
theorem mem_map_key_dedupByKeyAux {α κ : Type} [DecidableEq κ] (k : α → κ) :
    ∀ (seen : List κ) (l : List α) (b : κ), b ∈ l.map k → b ∉ seen →
      b ∈ (dedupByKeyAux k seen l).map k := by
  intro seen l
  induction l generalizing seen with
  | nil => intro b hb _; simp at hb
  | cons x xs ih =>
    intro b hb hbs
    rw [List.map_cons] at hb
    rcases List.mem_cons.mp hb with hbx | hbxs
    · by_cases hx : k x ∈ seen
      · exact absurd (hbx ▸ hx) hbs
      · simp only [dedupByKeyAux, if_neg hx, List.map_cons, List.mem_cons]
        exact Or.inl hbx
    · by_cases hx : k x ∈ seen
      · simp only [dedupByKeyAux, if_pos hx]
        exact ih seen b hbxs hbs
      · simp only [dedupByKeyAux, if_neg hx, List.map_cons, List.mem_cons]
        by_cases hbx : b = k x
        · exact Or.inl hbx
        · refine Or.inr (ih (k x :: seen) b hbxs ?_)
          simp only [List.mem_cons]
          push_neg
          exact ⟨hbx, hbs⟩

/-- Keys of the key-dedup output are pairwise distinct and unseen. -/
theorem nodup_map_key_dedupByKeyAux {α κ : Type} [DecidableEq κ] (k : α → κ) :
    ∀ (seen : List κ) (l : List α),
      ((dedupByKeyAux k seen l).map k).Nodup ∧
        ∀ b ∈ (dedupByKeyAux k seen l).map k, b ∉ seen := by
  intro seen l
  induction l generalizing seen with
  | nil => simp [dedupByKeyAux]
  | cons x xs ih =>
    by_cases hx : k x ∈ seen
    · simpa only [dedupByKeyAux, if_pos hx] using ih seen
    · simp only [dedupByKeyAux, if_neg hx, List.map_cons, List.nodup_cons]
      obtain ⟨hnd, hseen⟩ := ih (k x :: seen)
      refine ⟨⟨fun hmem => ?_, hnd⟩, ?_⟩
      · exact hseen (k x) hmem (List.mem_cons_self _ _)
      · intro b hb
        rcases List.mem_cons.mp hb with hbx | hbmem
        · exact hbx ▸ hx
        · intro hbs
          exact hseen b hbmem (List.mem_cons_of_mem _ hbs)

/-- Key-dedup drops a whole list whose keys were all seen. -/
theorem dedupByKeyAux_eq_nil {α κ : Type} [DecidableEq κ] (k : α → κ) :
    ∀ (seen : List κ) (l : List α), (∀ x ∈ l, k x ∈ seen) →
      dedupByKeyAux k seen l = [] := by
  intro seen l
  induction l generalizing seen with
  | nil => intro _; simp [dedupByKeyAux]
  | cons x xs ih =>
    intro h
    have hx : k x ∈ seen := h x (List.mem_cons_self x xs)
    simp only [dedupByKeyAux, if_pos hx]
    exact ih seen (fun y hy => h y (List.mem_cons_of_mem x hy))

/-- Appending elements whose keys already occur leaves key-dedup
unchanged. -/
theorem dedupByKeyAux_append_absorb {α κ : Type} [DecidableEq κ] (k : α → κ) :
    ∀ (seen : List κ) (l₁ l₂ : List α),
      (∀ y ∈ l₂, k y ∈ l₁.map k ∨ k y ∈ seen) →
      dedupByKeyAux k seen (l₁ ++ l₂) = dedupByKeyAux k seen l₁ := by
  intro seen l₁
  induction l₁ generalizing seen with
  | nil =>
    intro l₂ h
    simp only [List.nil_append, dedupByKeyAux]
    exact dedupByKeyAux_eq_nil k seen l₂ (by simpa using h)
  | cons x xs ih =>
    intro l₂ h
    by_cases hx : k x ∈ seen
    · simp only [List.cons_append, dedupByKeyAux, if_pos hx]
      refine ih seen l₂ ?_
      intro y hy
      rcases h y hy with hmem | hseen
      · rw [List.map_cons] at hmem
        rcases List.mem_cons.mp hmem with hkx | hks
        · exact Or.inr (hkx ▸ hx)
        · exact Or.inl hks
      · exact Or.inr hseen
    · simp only [List.cons_append, dedupByKeyAux, if_neg hx]
      congr 1
      refine ih (k x :: seen) l₂ ?_
      intro y hy
      rcases h y hy with hmem | hseen
      · rw [List.map_cons] at hmem
        rcases List.mem_cons.mp hmem with hkx | hks
        · exact Or.inr (hkx ▸ List.mem_cons_self _ _)
        · exact Or.inl hks
      · exact Or.inr (List.mem_cons_of_mem _ hseen)

/-- Claim C8: `build_hints_payload` deduplicates by `(locale, normalized
text)` keeping the first occurrence and sorts by `(normalized text, locale,
original text)` — witnessed by the pairwise-distinct dedup keys and the
key-sortedness of every payload — and it is idempotent: re-running it on
its own output with the same new texts yields an identical payload, for
every ordering of the original inputs. -/
theorem c8_build_hints_payload_idempotent (existing_hints : List Hint)
    (new_translations : List String) (locale : String) :
    buildHintsPayload (buildHintsPayload existing_hints new_translations locale)
        new_translations locale
      = buildHintsPayload existing_hints new_translations locale ∧
    ((buildHintsPayload existing_hints new_translations locale).map hintKey).Nodup ∧
    List.Sorted (fun a b => hintSortKey a ≤ hintSortKey b)
      (buildHintsPayload existing_hints new_translations locale) := by
  have hnews : ∀ (base : List Hint),
      buildHintsPayload base new_translations locale
        = sortByKey hintSortKey (dedupByKeyAux hintKey []
            (base ++ new_translations.filterMap (fun t =>
              if normalizeHintText t = "" then none
              else some (Hint.mk (some locale) t none)))) := by
    intro base
    rfl
  set news := new_translations.filterMap (fun t =>
    if normalizeHintText t = "" then none else some (Hint.mk (some locale) t none)) with hnewsdef
  set L := existing_hints ++ news with hL
  set D := dedupByKeyAux hintKey ([] : List (String × String)) L with hD
  set P := sortByKey hintSortKey D with hP
  have hPbuild : buildHintsPayload existing_hints new_translations locale = P := by
    rw [hnews existing_hints]
  have hDnodup : (D.map hintKey).Nodup := (nodup_map_key_dedupByKeyAux hintKey [] L).1
  have hPperm : P.Perm D := sortByKey_perm _ _
  have hPnodup : (P.map hintKey).Nodup :=
    (List.Perm.nodup_iff (hPperm.map hintKey)).mpr hDnodup
  have hPsorted : List.Sorted (fun a b => hintSortKey a ≤ hintSortKey b) P :=
    sortByKey_sorted hintSortKey D
  refine ⟨?_, hPbuild ▸ hPnodup, hPbuild ▸ hPsorted⟩
  rw [hPbuild, hnews P]
  have habs : dedupByKeyAux hintKey ([] : List (String × String)) (P ++ news)
      = dedupByKeyAux hintKey [] P := by
    apply dedupByKeyAux_append_absorb
    intro y hy
    left
    have h1 : hintKey y ∈ L.map hintKey :=
      List.mem_map_of_mem _ (List.mem_append_right existing_hints hy)
    have h2 : hintKey y ∈ D.map hintKey :=
      mem_map_key_dedupByKeyAux hintKey [] L _ h1 (by simp)
    exact ((hPperm.map hintKey).mem_iff).mpr h2
  rw [habs, dedupByKeyAux_eq_self hintKey [] P hPnodup (by simp)]
  exact sortByKey_eq_of_sorted hPsorted

/-- Claim C5 counterexample: the claim says selection "first deduplicates by
normalized form"; the candidates `["aA", "aa"]` share one normalized form,
so that reading leaves a one-element list on which `MIN` and `MAX` must
agree (`"aA"` when the first occurrence is kept, as everywhere else in this
codebase) — but the source dedups by the exact raw string, keeps both
candidates, and returns `"aA"` under `MIN` and `"aa"` under `MAX`. -/
theorem c5_counterexample :
    selectTranslationByPolicy ["aA", "aa"] .MIN = some "aA" ∧
    selectTranslationByPolicy ["aA", "aa"] .MAX = some "aa" ∧
    selectTranslationSpecWords ["aA", "aa"] .MIN = some "aA" ∧
    selectTranslationSpecWords ["aA", "aa"] .MAX = some "aA" ∧
    some "aa" ≠ (some "aA" : Option String) := by
  refine ⟨by decide, by decide, by decide, by decide, by decide⟩

/-- Claim C5 (amended): selection drops candidates with empty normalized
form and deduplicates exact duplicate strings keeping the first occurrence
(normalized-form dedup happens earlier, at field extraction), then stably
sorts by normalized text; `MIN` returns the first element, `MAX` the last
and `AVG` the element at index `len/2`; in particular for `"aaa"`, `"bbb"`,
`"ccc"` in any input order `MIN` selects `"aaa"`, `AVG` selects `"bbb"` and
`MAX` selects `"ccc"`. -/
theorem c5_selection_by_policy :
    (∀ ts : List String,
      selectTranslationByPolicy ts .MIN = (sortedTranslations ts).head? ∧
      selectTranslationByPolicy ts .MAX = (sortedTranslations ts).getLast? ∧
      selectTranslationByPolicy ts .AVG
        = (sortedTranslations ts)[(sortedTranslations ts).length / 2]?) ∧
    (∀ l : List String, l.Perm ["aaa", "bbb", "ccc"] →
      selectTranslationByPolicy l .MIN = some "aaa" ∧
      selectTranslationByPolicy l .AVG = some "bbb" ∧
      selectTranslationByPolicy l .MAX = some "ccc") := by
  constructor
  · intro ts
    unfold selectTranslationByPolicy
    cases h : sortedTranslations ts with
    | nil => simp
    | cons x xs => simp
  · intro l hperm
    have hmem : ∀ a ∈ l, a ∈ ["aaa", "bbb", "ccc"] := fun a ha => hperm.subset ha
    have hfilter : l.filter (fun t => normalizeText t ≠ "") = l := by
      apply List.filter_eq_self.mpr
      intro a ha
      have h3 := hmem a ha
      fin_cases h3 <;> decide
    have hnodup : l.Nodup := (List.Perm.nodup_iff hperm).mpr (by decide)
    have hdedup : dedupByKey id l = l := by
      apply dedupByKeyAux_eq_self id [] l _ (by simp)
      simpa using hnodup
    have hmapn : (l.map (fun t => (normalizeText t).data)).Nodup := by
      have hp2 : (l.map (fun t => (normalizeText t).data)).Perm
          (["aaa", "bbb", "ccc"].map (fun t => (normalizeText t).data)) :=
        hperm.map _
      exact (List.Perm.nodup_iff hp2).mpr (by decide)
    have hsorted : sortedTranslations l = ["aaa", "bbb", "ccc"] := by
      unfold sortedTranslations
      rw [hfilter]
      show sortByKey (fun t => (normalizeText t).data) (dedupByKey id l) = _
      rw [hdedup, sortByKey_eq_of_perm (fun t => (normalizeText t).data) hperm hmapn]
      decide
    refine ⟨?_, ?_, ?_⟩ <;> simp [selectTranslationByPolicy, hsorted]

/-- Claim C5 witness: the amended theorem applied to the concrete
permutation `["bbb", "ccc", "aaa"]`. -/
theorem c5_selection_by_policy_witness :
    selectTranslationByPolicy ["bbb", "ccc", "aaa"] .MIN = some "aaa" ∧
    selectTranslationByPolicy ["bbb", "ccc", "aaa"] .AVG = some "bbb" ∧
    selectTranslationByPolicy ["bbb", "ccc", "aaa"] .MAX = some "ccc" :=
  c5_selection_by_policy.2 ["bbb", "ccc", "aaa"] (by decide)

/-- Claim C2 counterexample: two notes sharing `note_id = 1` (one reviewed,
one not) against one matching service card. Whichever note comes first in
the snapshot wins the text match and contributes its own update operations,
so permuting the input changes `count_by_type` (an `update_status` appears
only when the reviewed note links). -/
theorem c2_counterexample :
    [exNoteB, exNoteA].Perm [exNoteA, exNoteB] ∧
    (computeSyncPlan [exNoteB, exNoteA] [exCard10] exProfile "en" none).countByType
      ≠ (computeSyncPlan [exNoteA, exNoteB] [exCard10] exProfile "en" none).countByType := by
  exact ⟨by decide, by decide⟩

/-- Claim C2 (amended): for fixed snapshots, profile, locale and options,
permuting the input note list and card list leaves the computed plan — and
hence `count_by_type` — unchanged, PROVIDED the notes' sort keys
(`note_id`, absent ids keyed 0) are pairwise distinct and likewise the
cards' pk sort keys. (With duplicate ids the counts can differ, see the
counterexample.) -/
theorem c2_plan_order_invariance (notes₁ notes₂ : List AnkiNote)
    (cards₁ cards₂ : List LingqCard) (profile : Profile) (meaning_locale : String)
    (run_options : Option RunOptions)
    (hn : notes₁.Perm notes₂) (hc : cards₁.Perm cards₂)
    (hndn : (notes₁.map (fun n => n.note_id.getD 0)).Nodup)
    (hndc : (cards₁.map (fun c => c.pk.getD 0)).Nodup) :
    computeSyncPlan notes₂ cards₂ profile meaning_locale run_options
      = computeSyncPlan notes₁ cards₁ profile meaning_locale run_options ∧
    (computeSyncPlan notes₂ cards₂ profile meaning_locale run_options).countByType
      = (computeSyncPlan notes₁ cards₁ profile meaning_locale run_options).countByType := by
  have hs1 := sortByKey_eq_of_perm (fun n : AnkiNote => n.note_id.getD 0) hn hndn
  have hs2 := sortByKey_eq_of_perm (fun c : LingqCard => c.pk.getD 0) hc hndc
  have hplan : computeSyncPlan notes₂ cards₂ profile meaning_locale run_options
      = computeSyncPlan notes₁ cards₁ profile meaning_locale run_options := by
    unfold computeSyncPlan
    rw [← hs1, ← hs2]
  exact ⟨hplan, congrArg SyncPlan.countByType hplan⟩

/-- Claim C2 witness: the amended invariance applied to singleton snapshots
(the identity permutation, trivially nodup keys). -/
theorem c2_plan_order_invariance_witness :
    (computeSyncPlan [exNoteA] [exCard10] exProfile "en" none).countByType
      = (computeSyncPlan [exNoteA] [exCard10] exProfile "en" none).countByType :=
  (c2_plan_order_invariance [exNoteA] [exNoteA] [exCard10] [exCard10] exProfile "en"
    none (List.Perm.refl _) (List.Perm.refl _) (by decide) (by decide)).2

/-- Claim C3: `compare_progress` follows the four-rule first-match-wins
decision table: scheduling disabled wins first with reason
`scheduling_writes_disabled`; then reviews + tier `new` syncs to the
service with reason `anki_has_reviews_lingq_new`; then no reviews + tier
not `new` either skips on polysemy (more than one hint in the locale) with
reason `polysemy_skip_lingq_to_anki` or syncs to the flashcard side with
reason `lingq_has_progress_anki_no_reviews`; otherwise `no_action`. -/
theorem c3_compare_progress_decision_table (lingq_status : Int)
    (lingq_hints : List Hint) (meaning_locale : String)
    (anki_has_reviews enable_scheduling_writes : Bool) :
    (enable_scheduling_writes = false →
      compareProgress lingq_status lingq_hints meaning_locale anki_has_reviews
          enable_scheduling_writes
        = ⟨false, false, lingqStatusToTier lingq_status none,
            "scheduling_writes_disabled"⟩) ∧
    (enable_scheduling_writes = true → anki_has_reviews = true →
      lingqStatusToTier lingq_status none = "new" →
      compareProgress lingq_status lingq_hints meaning_locale anki_has_reviews
          enable_scheduling_writes
        = ⟨true, false, lingqStatusToTier lingq_status none,
            "anki_has_reviews_lingq_new"⟩) ∧
    (enable_scheduling_writes = true → anki_has_reviews = false →
      lingqStatusToTier lingq_status none ≠ "new" →
      countHintsInLocale lingq_hints meaning_locale > 1 →
      compareProgress lingq_status lingq_hints meaning_locale anki_has_reviews
          enable_scheduling_writes
        = ⟨false, false, lingqStatusToTier lingq_status none,
            "polysemy_skip_lingq_to_anki"⟩) ∧
    (enable_scheduling_writes = true → anki_has_reviews = false →
      lingqStatusToTier lingq_status none ≠ "new" →
      ¬ countHintsInLocale lingq_hints meaning_locale > 1 →
      compareProgress lingq_status lingq_hints meaning_locale anki_has_reviews
          enable_scheduling_writes
        = ⟨false, true, lingqStatusToTier lingq_status none,
            "lingq_has_progress_anki_no_reviews"⟩) ∧
    (enable_scheduling_writes = true →
      ¬ (anki_has_reviews = true ∧ lingqStatusToTier lingq_status none = "new") →
      ¬ (anki_has_reviews = false ∧ lingqStatusToTier lingq_status none ≠ "new") →
      compareProgress lingq_status lingq_hints meaning_locale anki_has_reviews
          enable_scheduling_writes
        = ⟨false, false, lingqStatusToTier lingq_status none, "no_action"⟩) := by
  refine ⟨?_, ?_, ?_, ?_, ?_⟩
  · intro he
    subst he
    simp [compareProgress]
  · intro he hr ht
    subst he
    subst hr
    simp [compareProgress, ht]
  · intro he hr ht hp
    subst he
    subst hr
    have hpoly : hasPolysemy lingq_hints meaning_locale = true := by
      simpa [hasPolysemy] using hp
    simp [compareProgress, ht, hpoly]
  · intro he hr ht hp
    subst he
    subst hr
    have hpoly : hasPolysemy lingq_hints meaning_locale = false := by
      simpa [hasPolysemy] using hp
    simp [compareProgress, ht, hpoly]
  · intro he h2 h3
    subst he
    rcases Bool.eq_false_or_eq_true anki_has_reviews with hr | hr
    all_goals subst hr
    case inl =>
      have ht : lingqStatusToTier lingq_status none ≠ "new" := by
        intro hne
        exact h2 ⟨rfl, hne⟩
      simp [compareProgress, ht]
    case inr =>
      have ht : lingqStatusToTier lingq_status none = "new" := by
        by_contra hne
        exact h3 ⟨rfl, hne⟩
      simp [compareProgress, ht]

/-- Claim C3 witness: the decision table applied at concrete inputs (rule 1
with scheduling disabled, and rule 3 polysemy with two English hints on a
learned-tier card, no reviews). -/
theorem c3_compare_progress_decision_table_witness :
    compareProgress 0 [] "en" false false
      = ⟨false, false, "new", "scheduling_writes_disabled"⟩ ∧
    compareProgress 3 [⟨some "en", "a", none⟩, ⟨some "en", "b", none⟩] "en" false true
      = ⟨false, false, "learned", "polysemy_skip_lingq_to_anki"⟩ := by
  constructor
  · exact (c3_compare_progress_decision_table 0 [] "en" false false).1 rfl
  · exact (c3_compare_progress_decision_table 3
      [⟨some "en", "a", none⟩, ⟨some "en", "b", none⟩] "en" false true).2.2.1
      rfl rfl (by decide) (by decide)

/-- Claim C6 counterexample: a plan holding a `create_anki` and a `skip`
operation. `create_anki` is not one of the six priority buckets, so it gets
the fallback priority 999 and the skip executes BEFORE it — refuting
"every conflict and skip operation executes after every operation of any
other op_type". -/
theorem c6_counterexample :
    (orderedOperations exPlanC6).map (fun p => p.2.op_type)
      = [OP_SKIP, OP_CREATE_ANKI] ∧ OP_SKIP ≠ OP_CREATE_ANKI := by
  exact ⟨by decide, by decide⟩

/-- Claim C6 (amended): execution order is the stable regrouping of the
plan's operations by bucket priority — `link, create_lingq, update_hints,
update_status, conflict, skip` at priorities 0-5, every other op type
(`create_anki`, `reschedule_anki`, unknown) in a trailing 999 bucket — with
the original relative order preserved inside each bucket; consequently no
conflict or skip ever precedes a link/create_lingq/update_hints/
update_status operation. -/
theorem c6_ordered_operations_stable_buckets (plan : SyncPlan) :
    (orderedOperations plan).Perm plan.operations.enum ∧
    List.Pairwise (fun p q : Nat × SyncOperation =>
      opTypePriority p.2.op_type < opTypePriority q.2.op_type ∨
        (opTypePriority p.2.op_type = opTypePriority q.2.op_type ∧ p.1 < q.1))
      (orderedOperations plan) ∧
    List.Pairwise (fun p q : Nat × SyncOperation =>
      (p.2.op_type = OP_CONFLICT ∨ p.2.op_type = OP_SKIP) →
      (q.2.op_type = OP_LINK ∨ q.2.op_type = OP_CREATE_LINGQ ∨
        q.2.op_type = OP_UPDATE_HINTS ∨ q.2.op_type = OP_UPDATE_STATUS) → False)
      (orderedOperations plan) := by
  have hperm : (orderedOperations plan).Perm plan.operations.enum :=
    sortByKey_perm _ _
  have hfst : (plan.operations.enum.map Prod.fst).Nodup := by
    rw [List.enum_map_fst]
    exact List.nodup_range _
  have hkeymap :
      ((plan.operations.enum.map
          (fun p : Nat × SyncOperation =>
            toLex (opTypePriority p.2.op_type, p.1))).map
        (fun q : Lex (Nat × Nat) => (ofLex q).2))
        = plan.operations.enum.map Prod.fst := by
    rw [List.map_map]
    rfl
  have hkeynd : (plan.operations.enum.map
      (fun p : Nat × SyncOperation => toLex (opTypePriority p.2.op_type, p.1))).Nodup := by
    refine List.Nodup.of_map (fun q : Lex (Nat × Nat) => (ofLex q).2) ?_
    rw [hkeymap]
    exact hfst
  have hkeynd2 : ((orderedOperations plan).map
      (fun p : Nat × SyncOperation => toLex (opTypePriority p.2.op_type, p.1))).Nodup :=
    (List.Perm.nodup_iff (hperm.map _)).mpr hkeynd
  have hsorted : List.Sorted (fun p q : Nat × SyncOperation =>
      toLex (opTypePriority p.2.op_type, p.1) ≤ toLex (opTypePriority q.2.op_type, q.1))
      (orderedOperations plan) :=
    sortByKey_sorted (fun p : Nat × SyncOperation =>
      toLex (opTypePriority p.2.op_type, p.1)) plan.operations.enum
  have hne : List.Pairwise (fun p q : Nat × SyncOperation =>
      toLex (opTypePriority p.2.op_type, p.1) ≠ toLex (opTypePriority q.2.op_type, q.1))
      (orderedOperations plan) := List.pairwise_map.mp hkeynd2
  have hlt : List.Pairwise (fun p q : Nat × SyncOperation =>
      toLex (opTypePriority p.2.op_type, p.1) < toLex (opTypePriority q.2.op_type, q.1))
      (orderedOperations plan) :=
    (hsorted.and hne).imp (fun h => lt_of_le_of_ne h.1 h.2)
  have hdisj : List.Pairwise (fun p q : Nat × SyncOperation =>
      opTypePriority p.2.op_type < opTypePriority q.2.op_type ∨
        (opTypePriority p.2.op_type = opTypePriority q.2.op_type ∧ p.1 < q.1))
      (orderedOperations plan) :=
    hlt.imp (fun h => (Prod.Lex.lt_iff _ _).mp h)
  refine ⟨hperm, hdisj, ?_⟩
  refine hdisj.imp ?_
  intro p q hpq hp hq
  have hpv : opTypePriority p.2.op_type = 4 ∨ opTypePriority p.2.op_type = 5 := by
    rcases hp with h | h <;> rw [h] <;> [left; right] <;> decide
  have hqv : opTypePriority q.2.op_type ≤ 3 := by
    rcases hq with h | h | h | h <;> rw [h] <;> decide
  rcases hpq with hlt2 | ⟨heq, _⟩
  · omega
  · omega

/-- Operations emitted during hint-policy resolution are skips or
conflicts. -/
theorem resolveHintsPolicy_types (ctx : DiffCtx) (note : AnkiNote)
    (card : LingqCard) (nid pk : Int) :
    ∀ op ∈ (resolveHintsPolicy ctx note card nid pk).1,
      op.op_type = OP_SKIP ∨ op.op_type = OP_CONFLICT := by
  intro op hop
  simp only [resolveHintsPolicy] at hop
  repeat' split at hop
  all_goals simp_all [opSkip, opConflict]

/-- Operations emitted by the hints block are skips, conflicts or hint
updates. -/
theorem emitHintsSection_types (ctx : DiffCtx) (note : AnkiNote)
    (card : LingqCard) (nid pk : Int) :
    ∀ op ∈ emitHintsSection ctx note card nid pk,
      op.op_type = OP_SKIP ∨ op.op_type = OP_CONFLICT ∨
        op.op_type = OP_UPDATE_HINTS := by
  intro op hop
  simp only [emitHintsSection, List.mem_append] at hop
  rcases hop with h | h
  · exact (resolveHintsPolicy_types ctx note card nid pk op h).elim Or.inl
      (fun hc => Or.inr (Or.inl hc))
  · repeat' split at h
    all_goals simp_all

/-- Operations emitted by the progress block are skips, status updates or
reschedules. -/
theorem emitProgressSection_types (ctx : DiffCtx) (note : AnkiNote)
    (card : LingqCard) (nid pk : Int) :
    ∀ op ∈ emitProgressSection ctx note card nid pk,
      op.op_type = OP_SKIP ∨ op.op_type = OP_UPDATE_STATUS ∨
        op.op_type = OP_RESCHEDULE_ANKI := by
  intro op hop
  simp only [emitProgressSection] at hop
  repeat' split at hop
  all_goals simp_all [opSkip]

/-- The update-pair step only ever emits skip, conflict, update-hints,
update-status or reschedule operations — never link or create operations. -/
theorem emitUpdateOps_types (ctx : DiffCtx) (note : AnkiNote) (card : LingqCard) :
    ∀ op ∈ emitUpdateOps ctx note card,
      op.op_type = OP_SKIP ∨ op.op_type = OP_CONFLICT ∨
        op.op_type = OP_UPDATE_HINTS ∨ op.op_type = OP_UPDATE_STATUS ∨
        op.op_type = OP_RESCHEDULE_ANKI := by
  intro op hop
  unfold emitUpdateOps at hop
  split at hop
  case h_1 nid pk hn hp =>
    rcases List.mem_append.mp hop with h | h
    · exact (emitHintsSection_types ctx note card nid pk op h).elim Or.inl
        (fun hx => hx.elim (fun hc => Or.inr (Or.inl hc))
          (fun hu => Or.inr (Or.inr (Or.inl hu))))
    · exact (emitProgressSection_types ctx note card nid pk op h).elim Or.inl
        (fun hx => hx.elim (fun hs => Or.inr (Or.inr (Or.inr (Or.inl hs))))
          (fun hr => Or.inr (Or.inr (Or.inr (Or.inr hr)))))
  case h_2 =>
    simp_all [opSkip]

/-- Claim C1: for a note whose pk field parses, the pass-1 handler performs
no term/translation matching and never links or creates: a missing
service-side key yields exactly the one `dangling_pk` conflict, a key
already claimed this run yields exactly the one `duplicate_pk` conflict,
and otherwise the pair is treated as already linked and exactly the
update-pair step's operations are emitted (all of them update/skip/conflict
typed) — the pre-existing key wins over any text-based match. -/
theorem c1_pk_precedence (ctx : DiffCtx) (linked : List Int) (note : AnkiNote)
    (nid epk : Int) (hnid : note.note_id = some nid)
    (hpk : parseIntOpt (lookupField note.fields
      ctx.profile.lingq_to_anki.identity_fields.pk_field) = some epk) :
    (∀ op ∈ (processNote ctx linked note).1,
      op.op_type ≠ OP_LINK ∧ op.op_type ≠ OP_CREATE_LINGQ ∧
        op.op_type ≠ OP_CREATE_ANKI) ∧
    (lingqByPkGet ctx epk = none →
      (processNote ctx linked note).1
        = [opConflict (some nid) (some epk) (extractAnkiTerm note.fields ctx.profile).1
            "dangling_pk" "refresh_lingq_fetch_or_unlink_note"
            (ConflictInfo.pkFieldName ctx.profile.lingq_to_anki.identity_fields.pk_field)]) ∧
    (∀ card, lingqByPkGet ctx epk = some card → epk ∈ linked →
      (processNote ctx linked note).1
        = [opConflict (some nid) (some epk) (extractAnkiTerm note.fields ctx.profile).1
            "duplicate_pk" "dedupe_anki_notes_or_choose_primary"
            (ConflictInfo.pkValue epk)]) ∧
    (∀ card, lingqByPkGet ctx epk = some card → epk ∉ linked →
      (processNote ctx linked note).1 = emitUpdateOps ctx note card ∧
      ∀ op ∈ (processNote ctx linked note).1,
        op.op_type = OP_SKIP ∨ op.op_type = OP_CONFLICT ∨
          op.op_type = OP_UPDATE_HINTS ∨ op.op_type = OP_UPDATE_STATUS ∨
          op.op_type = OP_RESCHEDULE_ANKI) := by
  have hstep : processNote ctx linked note
      = processPkNote ctx linked note nid epk (extractAnkiTerm note.fields ctx.profile).1 := by
    simp [processNote, hnid, hpk]
  have hdangling : lingqByPkGet ctx epk = none →
      (processNote ctx linked note).1
        = [opConflict (some nid) (some epk) (extractAnkiTerm note.fields ctx.profile).1
            "dangling_pk" "refresh_lingq_fetch_or_unlink_note"
            (ConflictInfo.pkFieldName ctx.profile.lingq_to_anki.identity_fields.pk_field)] := by
    intro hg
    rw [hstep]
    simp [processPkNote, hg]
  have hdup : ∀ card, lingqByPkGet ctx epk = some card → epk ∈ linked →
      (processNote ctx linked note).1
        = [opConflict (some nid) (some epk) (extractAnkiTerm note.fields ctx.profile).1
            "duplicate_pk" "dedupe_anki_notes_or_choose_primary"
            (ConflictInfo.pkValue epk)] := by
    intro card hg hmem
    rw [hstep]
    simp [processPkNote, hg, hmem]
  have hupd : ∀ card, lingqByPkGet ctx epk = some card → epk ∉ linked →
      (processNote ctx linked note).1 = emitUpdateOps ctx note card := by
    intro card hg hmem
    rw [hstep]
    simp [processPkNote, hg, hmem]
  refine ⟨?_, hdangling, hdup, fun card hg hmem =>
    ⟨hupd card hg hmem, fun op hop =>
      emitUpdateOps_types ctx note card op ((hupd card hg hmem) ▸ hop)⟩⟩
  intro op hop
  cases hg : lingqByPkGet ctx epk with
  | none =>
    rw [hdangling hg] at hop
    simp only [List.mem_singleton] at hop
    subst hop
    exact ⟨by simp only [opConflict]; decide, by simp only [opConflict]; decide,
      by simp only [opConflict]; decide⟩
  | some card =>
    by_cases hmem : epk ∈ linked
    · rw [hdup card hg hmem] at hop
      simp only [List.mem_singleton] at hop
      subst hop
      exact ⟨by simp only [opConflict]; decide, by simp only [opConflict]; decide,
        by simp only [opConflict]; decide⟩
    · rw [hupd card hg hmem] at hop
      have h5 := emitUpdateOps_types ctx note card op hop
      rcases h5 with h | h | h | h | h
      all_goals rw [h]
      all_goals exact ⟨by decide, by decide, by decide⟩

/-- Claim C1 witness: a note carrying pk-field value 77 that no service
card has yields exactly one `dangling_pk` conflict (theorem applied at the
example context). -/
theorem c1_pk_precedence_witness :
    (processNote exCtx [] exNoteE).1
      = [opConflict (some 5) (some 77) (extractAnkiTerm exNoteE.fields exCtx.profile).1
          "dangling_pk" "refresh_lingq_fetch_or_unlink_note"
          (ConflictInfo.pkFieldName exCtx.profile.lingq_to_anki.identity_fields.pk_field)] :=
  (c1_pk_precedence exCtx [] exNoteE 5 77 rfl (by decide)).2.1 (by decide)

/-- Claim C4 counterexample: an unlinked note whose snapshot carries NO
cards list shows no review evidence, yet `compute_sync_plan` emits a
`create_lingq` and no skip (the source applies the unreviewed-skip guard
only when a cards list is present, keeping legacy behaviour otherwise) —
refuting "otherwise it emits exactly one skip". -/
theorem c4_counterexample :
    ankiHasReviews exNoteC = false ∧
    (computeSyncPlan [exNoteC] [] exProfile "en" none).operations.map
        (fun o => o.op_type) = [OP_CREATE_LINGQ] ∧
    ((computeSyncPlan [exNoteC] [] exProfile "en" none).operations.filter
        (fun o => o.op_type = OP_SKIP)).length = 0 := by
  exact ⟨by decide, by decide, by decide⟩

/-- Claim C4 (amended): for an unlinked note with a term, exactly one
extracted translation and zero service-side matches, the pass-1 handler
emits a `create_lingq` only if the snapshot's cards list is absent (legacy
behaviour) or some card sub-record shows `reps > 0`; when the cards list is
present and the note is unreviewed it emits exactly one skip with reason
`anki_unreviewed_skip_create_lingq` and no `create_lingq`. -/
theorem c4_unreviewed_create_guard (ctx : DiffCtx) (linked : List Int)
    (note : AnkiNote) (nid : Int) (t tn : String)
    (hnid : note.note_id = some nid)
    (hpk : parseIntOpt (lookupField note.fields
      ctx.profile.lingq_to_anki.identity_fields.pk_field) = none)
    (htr : extractAnkiTranslations note.fields ctx.profile = ([t], [tn]))
    (hterm : (extractAnkiTerm note.fields ctx.profile).2 ≠ "")
    (hmatch : filterLingqByTranslation
      (lingqByTermNorm ctx (extractAnkiTerm note.fields ctx.profile).2) tn
      ctx.meaning_locale = []) :
    (∀ cs, note.cards = some cs → ankiHasReviews note = false →
      (processNote ctx linked note).1
        = [opSkip (some nid) none (extractAnkiTerm note.fields ctx.profile).1
            "anki_unreviewed_skip_create_lingq"]) ∧
    (ankiHasReviews note = true →
      (processNote ctx linked note).1
        = [opCreateLingq nid (extractAnkiTerm note.fields ctx.profile).1 [t]
            ctx.profile.lingq_language ctx.meaning_locale (noteFragmentValue ctx note)
            ctx.profile.lingq_to_anki.identity_fields.pk_field
            ctx.profile.lingq_to_anki.identity_fields.canonical_term_field
            (mapAnkiProgressToLingqStatus note 0)]) ∧
    (note.cards = none →
      (processNote ctx linked note).1
        = [opCreateLingq nid (extractAnkiTerm note.fields ctx.profile).1 [t]
            ctx.profile.lingq_language ctx.meaning_locale (noteFragmentValue ctx note)
            ctx.profile.lingq_to_anki.identity_fields.pk_field
            ctx.profile.lingq_to_anki.identity_fields.canonical_term_field
            (mapAnkiProgressToLingqStatus note 0)]) := by
  have hstep : processNote ctx linked note
      = processMatchStep ctx linked note nid (extractAnkiTerm note.fields ctx.profile).1
          (extractAnkiTerm note.fields ctx.profile).2 [t] [tn] := by
    simp [processNote, hnid, hpk, processUnlinkedNote, htr, hterm]
  refine ⟨?_, ?_, ?_⟩
  · intro cs hc hrev
    rw [hstep]
    simp [processMatchStep, hmatch, hc, hrev]
  · intro hrev
    rw [hstep]
    simp [processMatchStep, hmatch, hrev]
  · intro hc
    rw [hstep]
    simp [processMatchStep, hmatch, hc]

/-- Claim C4 witness: the amended guard applied to a note with one card at
`reps = 0` and an empty service snapshot — exactly one unreviewed skip. -/
theorem c4_unreviewed_create_guard_witness :
    (processNote exCtxNoCards [] exNoteD).1
      = [opSkip (some 2) none (extractAnkiTerm exNoteD.fields exCtxNoCards.profile).1
          "anki_unreviewed_skip_create_lingq"] :=
  (c4_unreviewed_create_guard exCtxNoCards [] exNoteD 2 "x" "x" rfl (by decide)
    (by decide) (by decide) (by decide)).1 [⟨some 0, none⟩] rfl (by decide)

/-- Each apply-loop step increments exactly one of the three counters. -/
theorem applyStep_counter_sum (env : ApplyEnv) (i : Nat) (op : SyncOperation)
    (st : ApplyResult × Checkpoint) :
    (applyStep env i op st).1.success_count + (applyStep env i op st).1.error_count
        + (applyStep env i op st).1.skipped_count
      = st.1.success_count + st.1.error_count + st.1.skipped_count + 1 := by
  simp only [applyStep]
  repeat' split
  all_goals simp
  all_goals omega

/-- The `finally` block advances the cursor to `i + 1` on every step,
whatever the outcome. -/
theorem applyStep_cursor (env : ApplyEnv) (i : Nat) (op : SyncOperation)
    (st : ApplyResult × Checkpoint) :
    (applyStep env i op st).2.last_processed_index = (i : Int) + 1 := rfl

/-- The apply loop's final cursor: unchanged on an empty remainder, else
start index plus the number of remaining operations. -/
theorem applyOps_cursor (env : ApplyEnv) :
    ∀ (l : List (Nat × SyncOperation)) (i : Nat) (st : ApplyResult × Checkpoint),
      (applyOps env l i st).2.last_processed_index
        = if l.isEmpty then st.2.last_processed_index else ((i : Int) + l.length) := by
  intro l
  induction l with
  | nil => intro i st; simp [applyOps]
  | cons x rest ih =>
    intro i st
    simp only [applyOps, List.isEmpty_cons, ih, applyStep_cursor]
    cases rest with
    | nil => simp
    | cons y ys => simp; ring

/-- The apply loop adds one counter unit per remaining operation. -/
theorem applyOps_counter_sum (env : ApplyEnv) :
    ∀ (l : List (Nat × SyncOperation)) (i : Nat) (st : ApplyResult × Checkpoint),
      (applyOps env l i st).1.success_count + (applyOps env l i st).1.error_count
          + (applyOps env l i st).1.skipped_count
        = st.1.success_count + st.1.error_count + st.1.skipped_count + l.length := by
  intro l
  induction l with
  | nil => intro i st; simp [applyOps]
  | cons x rest ih =>
    intro i st
    simp only [applyOps, ih, applyStep_counter_sum, List.length_cons]
    omega

/-- Claim C9: in `apply_sync_plan`, a raised execution error on an
uncompleted, executing operation is absorbed: the error count rises by one,
an error message prefixed by the op type and containing the quoted term is
appended, the operation's identifier still joins `completed_ops`; and the
cursor advances by one after every operation regardless of outcome, so a
run starting inside the plan ends with the cursor past the last operation,
having processed each remaining operation exactly once. -/
theorem c9_apply_error_handling :
    (∀ (env : ApplyEnv) (i : Nat) (op : SyncOperation) (st : ApplyResult × Checkpoint),
      (applyStep env i op st).2.last_processed_index = (i : Int) + 1) ∧
    (∀ (env : ApplyEnv) (i : Nat) (op : SyncOperation) (res : ApplyResult)
        (cp : Checkpoint) (m : String),
      opIdentifier op ∉ cp.completed_ops →
      (op.op_type = OP_CREATE_LINGQ ∨ op.op_type = OP_UPDATE_HINTS ∨
        op.op_type = OP_UPDATE_STATUS ∨
        ((op.op_type = OP_LINK ∨ op.op_type = OP_CREATE_ANKI ∨
          op.op_type = OP_RESCHEDULE_ANKI) ∧ env.ankiRuntime = true)) →
      env.exec i op = .err m →
      (applyStep env i op (res, cp)).1.error_count = res.error_count + 1 ∧
      (applyStep env i op (res, cp)).1.success_count = res.success_count ∧
      (applyStep env i op (res, cp)).1.skipped_count = res.skipped_count ∧
      (applyStep env i op (res, cp)).1.errors = res.errors ++ [opFailureMessage op m] ∧
      opFailureMessage op m
        = op.op_type ++ (" failed for '" ++ op.term ++ ("': " ++ m)) ∧
      (applyStep env i op (res, cp)).2.completed_ops
        = cp.completed_ops ++ [opIdentifier op]) ∧
    (∀ (env : ApplyEnv) (plan : SyncPlan) (cp : Checkpoint),
      0 ≤ cp.last_processed_index →
      cp.last_processed_index ≤ ((orderedOperations plan).length : Int) →
      (applySyncPlan env plan cp).2.last_processed_index
        = ((orderedOperations plan).length : Int)) := by
  refine ⟨applyStep_cursor, ?_, ?_⟩
  · intro env i op res cp m hnc hty hex
    have hmsg : opFailureMessage op m
        = op.op_type ++ (" failed for '" ++ op.term ++ ("': " ++ m)) := by
      apply String.ext
      simp [opFailureMessage, String.data_append]
    have hterm : ¬ (op.op_type = OP_CONFLICT ∨ op.op_type = OP_SKIP) := by
      rcases hty with h | h | h | ⟨h, _⟩
      · rw [h]; decide
      · rw [h]; decide
      · rw [h]; decide
      · rcases h with h | h | h <;> rw [h] <;> decide
    rcases hty with h | h | h | ⟨h3, hrt⟩
    · refine ⟨?_, ?_, ?_, ?_, hmsg, ?_⟩ <;>
        simp +decide [applyStep, hnc, hterm, h, hex]
    · refine ⟨?_, ?_, ?_, ?_, hmsg, ?_⟩ <;>
        simp +decide [applyStep, hnc, hterm, h, hex]
    · refine ⟨?_, ?_, ?_, ?_, hmsg, ?_⟩ <;>
        simp +decide [applyStep, hnc, hterm, h, hex]
    · have hnl : ¬ (op.op_type = OP_CREATE_LINGQ ∨ op.op_type = OP_UPDATE_HINTS ∨
          op.op_type = OP_UPDATE_STATUS) := by
        rcases h3 with h | h | h <;> rw [h] <;> decide
      refine ⟨?_, ?_, ?_, ?_, hmsg, ?_⟩ <;>
        simp +decide [applyStep, hnc, hterm, hnl, h3, hrt, hex]
  · intro env plan cp h0 h1
    unfold applySyncPlan
    have hlpi : (if cp.run_id = "" then { cp with run_id := env.freshRunId }
        else cp).last_processed_index = cp.last_processed_index := by
      split <;> rfl
    rw [applyOps_cursor, hlpi]
    set n := (orderedOperations plan).length with hn
    have hmax : max 0 cp.last_processed_index = cp.last_processed_index :=
      max_eq_right h0
    rw [hmax]
    have htn : (cp.last_processed_index.toNat : Int) = cp.last_processed_index :=
      Int.toNat_of_nonneg h0
    have hlen : ((orderedOperations plan).drop cp.last_processed_index.toNat).length
        = n - cp.last_processed_index.toNat := by
      rw [List.length_drop]
    split
    case isTrue hemp =>
      have : (orderedOperations plan).drop cp.last_processed_index.toNat = [] :=
        List.isEmpty_iff.mp hemp
      have hge : n ≤ cp.last_processed_index.toNat := by
        have := List.drop_eq_nil_iff.mp this
        simpa [hn] using this
      omega
    case isFalse hemp =>
      rw [hlen]
      have hlt : cp.last_processed_index.toNat ≤ n := by omega
      omega

/-- Claim C9 witness: a create-LingQ operation whose execution raises
`boom` on a fresh checkpoint — the theorem's error branch applied at
concrete inputs. -/
theorem c9_apply_error_handling_witness :
    (applyStep exEnvErr 0 exOpCreate (⟨0, 0, 0, []⟩, exCp0)).1.error_count = 0 + 1 ∧
    (applyStep exEnvErr 0 exOpCreate (⟨0, 0, 0, []⟩, exCp0)).1.success_count = 0 ∧
    (applyStep exEnvErr 0 exOpCreate (⟨0, 0, 0, []⟩, exCp0)).1.skipped_count = 0 ∧
    (applyStep exEnvErr 0 exOpCreate (⟨0, 0, 0, []⟩, exCp0)).1.errors
      = [] ++ [opFailureMessage exOpCreate "boom"] ∧
    opFailureMessage exOpCreate "boom"
      = exOpCreate.op_type ++ (" failed for '" ++ exOpCreate.term ++ ("': " ++ "boom")) ∧
    (applyStep exEnvErr 0 exOpCreate (⟨0, 0, 0, []⟩, exCp0)).2.completed_ops
      = [] ++ [opIdentifier exOpCreate] :=
  c9_apply_error_handling.2.1 exEnvErr 0 exOpCreate ⟨0, 0, 0, []⟩ exCp0 "boom"
    (by simp [exCp0]) (Or.inl rfl) rfl

/-- Claim C10: with a fresh checkpoint (cursor 0, no completed ops), each
operation increments exactly one of the three counters, so the returned
counts satisfy `success + error + skipped = number of plan operations`. -/
theorem c10_counters_partition :
    (∀ (env : ApplyEnv) (i : Nat) (op : SyncOperation) (st : ApplyResult × Checkpoint),
      (applyStep env i op st).1.success_count + (applyStep env i op st).1.error_count
          + (applyStep env i op st).1.skipped_count
        = st.1.success_count + st.1.error_count + st.1.skipped_count + 1) ∧
    (∀ (env : ApplyEnv) (plan : SyncPlan) (cp : Checkpoint),
      cp.last_processed_index = 0 → cp.completed_ops = [] →
      (applySyncPlan env plan cp).1.success_count
          + (applySyncPlan env plan cp).1.error_count
          + (applySyncPlan env plan cp).1.skipped_count
        = plan.operations.length) := by
  refine ⟨applyStep_counter_sum, ?_⟩
  intro env plan cp hlpi _hco
  unfold applySyncPlan
  have hlpi2 : (if cp.run_id = "" then { cp with run_id := env.freshRunId }
      else cp).last_processed_index = cp.last_processed_index := by
    split <;> rfl
  rw [applyOps_counter_sum, hlpi2, hlpi]
  have hlen : (orderedOperations plan).length = plan.operations.length := by
    unfold orderedOperations
    rw [(sortByKey_perm (fun p : Nat × SyncOperation =>
      toLex (opTypePriority p.2.op_type, p.1)) plan.operations.enum).length_eq,
      List.enum_length]
  simp [hlen]

/-- Claim C10 witness: the partition applied to the two-operation example
plan on a fresh checkpoint. -/
theorem c10_counters_partition_witness :
    (applySyncPlan exEnvErr exPlanC6 exCp0).1.success_count
        + (applySyncPlan exEnvErr exPlanC6 exCp0).1.error_count
        + (applySyncPlan exEnvErr exPlanC6 exCp0).1.skipped_count
      = exPlanC6.operations.length :=
  c10_counters_partition.2 exEnvErr exPlanC6 exCp0 rfl rfl

/-- Decimal digit characters emitted by `Nat.digitChar` below base 10. -/
theorem digitChar_isDigit (m : Nat) (h : m < 10) : (Nat.digitChar m).isDigit = true := by
  interval_cases m <;> decide

/-- Numeric value of a digit character emitted by `Nat.digitChar`. -/
theorem digitChar_toNat (m : Nat) (h : m < 10) : (Nat.digitChar m).toNat - 48 = m := by
  interval_cases m <;> decide

/-- Every character produced by the base-10 digit renderer is a digit
(provided the accumulator holds only digits). -/
theorem toDigitsCore_isDigit :
    ∀ (f n : Nat) (acc : List Char), (∀ c ∈ acc, c.isDigit = true) →
      ∀ c ∈ Nat.toDigitsCore 10 f n acc, c.isDigit = true := by
  intro f
  induction f with
  | zero =>
    intro n acc hacc c hc
    rw [Nat.toDigitsCore] at hc
    exact hacc c hc
  | succ f ih =>
    intro n acc hacc c hc
    rw [Nat.toDigitsCore] at hc
    by_cases h : n / 10 = 0
    · simp only [if_pos h] at hc
      rcases List.mem_cons.mp hc with h1 | h1
      · exact h1 ▸ digitChar_isDigit _ (Nat.mod_lt _ (by decide))
      · exact hacc c h1
    · simp only [if_neg h] at hc
      refine ih (n / 10) (Nat.digitChar (n % 10) :: acc) ?_ c hc
      intro d hd
      rcases List.mem_cons.mp hd with h1 | h1
      · exact h1 ▸ digitChar_isDigit _ (Nat.mod_lt _ (by decide))
      · exact hacc d h1

/-- The digit renderer's accumulator is a suffix it appends to. -/
theorem toDigitsCore_append :
    ∀ (f n : Nat) (acc : List Char),
      Nat.toDigitsCore 10 f n acc = Nat.toDigitsCore 10 f n [] ++ acc := by
  intro f
  induction f with
  | zero =>
    intro n acc
    rw [Nat.toDigitsCore, Nat.toDigitsCore]
    simp
  | succ f ih =>
    intro n acc
    rw [Nat.toDigitsCore]
    conv_rhs => rw [Nat.toDigitsCore]
    by_cases h : n / 10 = 0
    · simp [if_pos h]
    · simp only [if_neg h]
      rw [ih (n / 10) (Nat.digitChar (n % 10) :: acc),
        ih (n / 10) [Nat.digitChar (n % 10)]]
      simp

/-- Core's `toString` on `Int` is `Int.repr`. -/
theorem toString_int (n : Int) : toString n = Int.repr n := rfl

/-- Base-10 place-value interpretation of a digit-character list. -/
def charsVal (l : List Char) : Nat :=
  l.foldl (fun a c => 10 * a + (c.toNat - 48)) 0

/-- The digit renderer round-trips through `charsVal` (fuel above `n`). -/
theorem toDigitsCore_val :
    ∀ (f n : Nat), n < f → charsVal (Nat.toDigitsCore 10 f n []) = n := by
  intro f
  induction f with
  | zero => intro n hn; omega
  | succ f ih =>
    intro n hn
    rw [Nat.toDigitsCore]
    by_cases h : n / 10 = 0
    · have hn10 : n < 10 := (Nat.div_eq_zero_iff (by decide)).mp h
      simp only [if_pos h, Nat.mod_eq_of_lt hn10]
      show 10 * 0 + ((Nat.digitChar n).toNat - 48) = n
      rw [digitChar_toNat n hn10]
      omega
    · simp only [if_neg h]
      rw [toDigitsCore_append]
      have hval : charsVal (Nat.toDigitsCore 10 f (n / 10) [] ++ [Nat.digitChar (n % 10)])
          = 10 * charsVal (Nat.toDigitsCore 10 f (n / 10) [])
            + ((Nat.digitChar (n % 10)).toNat - 48) := by
        unfold charsVal
        rw [List.foldl_append]
        rfl
      rw [hval, digitChar_toNat _ (Nat.mod_lt _ (by decide)), ih (n / 10) (by omega)]
      omega

/-- `Nat.toDigits` round-trips through `charsVal`. -/
theorem toDigits_val (n : Nat) : charsVal (Nat.toDigits 10 n) = n :=
  toDigitsCore_val (n + 1) n (Nat.lt_succ_self n)

/-- The digit rendering of a natural number is never empty. -/
theorem toDigits_ne_nil (n : Nat) : Nat.toDigits 10 n ≠ [] := by
  intro h
  have hv := toDigits_val n
  rw [h] at hv
  have hn : n = 0 := by simpa [charsVal] using hv.symm
  subst hn
  exact absurd h (by decide)

/-- `Nat.repr` is injective. -/
theorem natRepr_inj {m n : Nat} (h : Nat.repr m = Nat.repr n) : m = n := by
  have hd : Nat.toDigits 10 m = Nat.toDigits 10 n := congrArg String.data h
  calc m = charsVal (Nat.toDigits 10 m) := (toDigits_val m).symm
    _ = charsVal (Nat.toDigits 10 n) := by rw [hd]
    _ = n := toDigits_val n

/-- All characters of `Nat.repr` are digits. -/
theorem natRepr_isDigit (n : Nat) : ∀ c ∈ (Nat.repr n).data, c.isDigit = true :=
  fun c hc => toDigitsCore_isDigit (n + 1) n [] (by simp) c hc

/-- `Int.repr` is injective. -/
theorem intRepr_inj {m n : Int} (h : Int.repr m = Int.repr n) : m = n := by
  match m, n with
  | Int.ofNat a, Int.ofNat b =>
    exact congrArg Int.ofNat (natRepr_inj h)
  | Int.ofNat a, Int.negSucc b =>
    exfalso
    have hd : (Nat.repr a).data = '-' :: (Nat.repr (b + 1)).data := by
      have := congrArg String.data h
      simpa [Int.repr, String.data_append] using this
    have : ('-' : Char).isDigit = true := by
      have := natRepr_isDigit a '-' (by rw [hd]; exact List.mem_cons_self _ _)
      exact this
    simp at this
  | Int.negSucc a, Int.ofNat b =>
    exfalso
    have hd : '-' :: (Nat.repr (a + 1)).data = (Nat.repr b).data := by
      have := congrArg String.data h
      simpa [Int.repr, String.data_append] using this
    have : ('-' : Char).isDigit = true := by
      have := natRepr_isDigit b '-' (by rw [← hd]; exact List.mem_cons_self _ _)
      exact this
    simp at this
  | Int.negSucc a, Int.negSucc b =>
    have hd : (Nat.repr (a + 1)).data = (Nat.repr (b + 1)).data := by
      have := congrArg String.data h
      simpa [Int.repr, String.data_append] using this
    have h2 := natRepr_inj (String.ext hd)
    have hab : a = b := by omega
    rw [hab]

/-- `Nat.repr` is never the empty string. -/
theorem natRepr_ne_empty (n : Nat) : Nat.repr n ≠ "" := by
  intro h
  exact toDigits_ne_nil n (congrArg String.data h)

/-- The rendering of an optional id is colon-free. -/
theorem optIntStr_colon_free (v : Option Int) : ∀ c ∈ (optIntStr v).data, c ≠ ':' := by
  match v with
  | none => intro c hc; simp [optIntStr] at hc
  | some (Int.ofNat a) =>
    intro c hc he
    have := natRepr_isDigit a c hc
    subst he
    simp at this
  | some (Int.negSucc a) =>
    intro c hc he
    subst he
    have hc2 : (':' : Char) ∈ ('-' :: (Nat.repr (a + 1)).data) := by
      simpa [optIntStr, toString_int, Int.repr, String.data_append] using hc
    rcases List.mem_cons.mp hc2 with h1 | h1
    · exact absurd h1 (by decide)
    · have := natRepr_isDigit (a + 1) ':' h1
      simp at this

/-- The rendering of an optional id is injective. -/
theorem optIntStr_inj {v w : Option Int} (h : optIntStr v = optIntStr w) : v = w := by
  match v, w with
  | none, none => rfl
  | none, some n =>
    exfalso
    match n with
    | Int.ofNat a =>
      exact natRepr_ne_empty a
        (by simpa [optIntStr, toString_int, Int.repr] using h.symm)
    | Int.negSucc a =>
      have := congrArg String.data h
      simp [optIntStr, toString_int, Int.repr, String.data_append] at this
  | some n, none =>
    exfalso
    match n with
    | Int.ofNat a =>
      exact natRepr_ne_empty a (by simpa [optIntStr, toString_int, Int.repr] using h)
    | Int.negSucc a =>
      have := congrArg String.data h
      simp [optIntStr, toString_int, Int.repr, String.data_append] at this
  | some m, some n =>
    exact congrArg some (intRepr_inj h)

/-- Splitting a colon-delimited concatenation at the first colon is
unambiguous when the leading chunks are colon-free. -/
theorem append_colon_inj :
    ∀ {a b u v : List Char}, (∀ c ∈ a, c ≠ ':') → (∀ c ∈ b, c ≠ ':') →
      a ++ ':' :: u = b ++ ':' :: v → a = b ∧ u = v := by
  intro a
  induction a with
  | nil =>
    intro b u v _ hb h
    cases b with
    | nil => simpa using h
    | cons y ys =>
      exfalso
      simp only [List.nil_append, List.cons_append, List.cons.injEq] at h
      exact hb y (List.mem_cons_self _ _) h.1.symm
  | cons x xs ih =>
    intro b u v ha hb h
    cases b with
    | nil =>
      exfalso
      simp only [List.nil_append, List.cons_append, List.cons.injEq] at h
      exact ha x (List.mem_cons_self _ _) h.1
    | cons y ys =>
      simp only [List.cons_append, List.cons.injEq] at h
      obtain ⟨hxy, hrest⟩ := h
      have := ih (fun c hc => ha c (List.mem_cons_of_mem _ hc))
        (fun c hc => hb c (List.mem_cons_of_mem _ hc)) hrest
      exact ⟨by rw [hxy, this.1], this.2⟩

/-- Claim C7: for operations whose `op_type` is one of the eight operation
type constants (all colon-free, as every plan operation's is), the apply
engine's identifier string is equal exactly when the two operations agree
on the whole quadruple `(op_type, anki_note_id, lingq_pk, term)`, and it is
unchanged under any modification of the `details` payload. -/
theorem c7_op_identifier_stable (op₁ op₂ : SyncOperation)
    (h₁ : op₁.op_type ∈ [OP_CREATE_LINGQ, OP_CREATE_ANKI, OP_LINK, OP_UPDATE_HINTS,
      OP_UPDATE_STATUS, OP_RESCHEDULE_ANKI, OP_CONFLICT, OP_SKIP])
    (h₂ : op₂.op_type ∈ [OP_CREATE_LINGQ, OP_CREATE_ANKI, OP_LINK, OP_UPDATE_HINTS,
      OP_UPDATE_STATUS, OP_RESCHEDULE_ANKI, OP_CONFLICT, OP_SKIP]) :
    (opIdentifier op₁ = opIdentifier op₂ ↔
      (op₁.op_type = op₂.op_type ∧ op₁.anki_note_id = op₂.anki_note_id ∧
        op₁.lingq_pk = op₂.lingq_pk ∧ op₁.term = op₂.term)) ∧
    (∀ d : Details, opIdentifier { op₁ with details := d } = opIdentifier op₁) := by
  have hcf : ∀ (op : SyncOperation),
      op.op_type ∈ [OP_CREATE_LINGQ, OP_CREATE_ANKI, OP_LINK, OP_UPDATE_HINTS,
        OP_UPDATE_STATUS, OP_RESCHEDULE_ANKI, OP_CONFLICT, OP_SKIP] →
      ∀ c ∈ op.op_type.data, c ≠ ':' := by
    intro op hm
    simp only [List.mem_cons, List.not_mem_nil, or_false] at hm
    rcases hm with h | h | h | h | h | h | h | h <;> rw [h] <;> decide
  have hcolon : (":" : String).data = [':'] := rfl
  refine ⟨⟨?_, ?_⟩, fun d => rfl⟩
  · intro h
    have hd := congrArg String.data h
    simp only [opIdentifier, String.data_append, hcolon, List.append_assoc,
      List.singleton_append] at hd
    obtain ⟨he1, hrest⟩ := append_colon_inj (hcf op₁ h₁) (hcf op₂ h₂) hd
    obtain ⟨he2, hrest2⟩ := append_colon_inj (optIntStr_colon_free _)
      (optIntStr_colon_free _) hrest
    obtain ⟨he3, he4⟩ := append_colon_inj (optIntStr_colon_free _)
      (optIntStr_colon_free _) hrest2
    exact ⟨String.ext he1, optIntStr_inj (String.ext he2),
      optIntStr_inj (String.ext he3), String.ext he4⟩
  · rintro ⟨e1, e2, e3, e4⟩
    simp [opIdentifier, e1, e2, e3, e4]

/-- Claim C7 witness: the identifier criterion applied to two concrete
operations of different type (distinct identifiers), plus insensitivity to
a concrete details change. -/
theorem c7_op_identifier_stable_witness :
    opIdentifier exOpSkip ≠ opIdentifier exOpCreate ∧
    opIdentifier { exOpSkip with details := Details.dskip "other" }
      = opIdentifier exOpSkip := by
  constructor
  · intro h
    have hq := (c7_op_identifier_stable exOpSkip exOpCreate (by decide) (by decide)).1.mp h
    exact absurd hq (by decide)
  · exact (c7_op_identifier_stable exOpSkip exOpSkip (by decide) (by decide)).2
      (Details.dskip "other")
